import Mathlib

/-!
Verification of the blendoc `.blend` reader against its specification.

The definitions below are a shallow embedding of the Rust sources:
machine integers (`u8`/`u16`/`u32`/`u64`/`usize`) are modelled as `Nat`
(with explicit `% 2^w` or bound hypotheses where wrap-around matters),
byte strings as `List Nat`, fallible functions as `Option`/`Except`.
Each definition keeps the source's name and control flow.
-/

namespace Blendoc

/-- Byte strings (`&[u8]` / `Vec<u8>`): lists of naturals, each < 256 in
any state reachable from the source. -/
abbrev Bytes := List Nat

/-- ASCII string literal to byte list (only applied to ASCII literals,
where `Char.toNat` equals the UTF-8 byte). -/
def bs (s : String) : Bytes := s.data.map Char.toNat

/-- Little-endian recombination of a byte list, as done by the source's
`u{16,32,64}::from_le_bytes` on slices of the matching length. -/
def readLE : Bytes → Nat
  | [] => 0
  | b :: rest => b + 256 * readLE rest

/-- `n`-byte little-endian encoding of `v` (`u64::to_le_bytes` etc.). -/
def leBytes : Nat → Nat → Bytes
  | 0, _ => []
  | n + 1, v => v % 256 :: leBytes n (v / 256)

theorem readLE_leBytes (n v : Nat) : readLE (leBytes n v) = v % 256 ^ n := by
  induction n generalizing v with
  | zero => simp [leBytes, readLE, Nat.mod_one]
  | succ n ih =>
      rw [leBytes, readLE, ih]
      rw [pow_succ, mul_comm (256 ^ n) 256, Nat.mod_mul]

theorem readLE_leBytes_of_lt {n v : Nat} (h : v < 256 ^ n) :
    readLE (leBytes n v) = v := by
  rw [readLE_leBytes, Nat.mod_eq_of_lt h]

/-- Error taxonomy (`BlendError`), restricted to the variants the
embedded operations can produce. -/
inductive BlendError where
  | UnexpectedEof (at_ need rem : Nat)
  | InvalidHeader
  | UnsupportedFormatVersion (version : Nat)
  | UnsupportedPointerSize (header_size : Nat)
  | UnknownMagic (magic : Bytes)
  | DecompressedTooLarge (limit : Nat)
  | NotBlendAfterDecompress
  | DnaBadTag (expected got : Bytes) (at_ : Nat)
  | DnaIndexOutOfRange (kind : String) (idx max : Nat)
  | DnaDuplicateStructType (type_idx first second : Nat)
  | DnaStructNotFound (name : String)
  | DecodeMissingSdna (sdna_nr : Nat)
  | DecodeArrayTooLarge (count max : Nat)
  | DecodePayloadTooSmall (need have_ : Nat)
  | DecodeDepthExceeded (max_depth : Nat)
  | DecodeLayoutMismatch (type_name : Bytes) (leftover : Nat)
  | ChaseHopLimitExceeded (max_hops : Nat)
  | ChaseNullPtr
  | ChaseUnresolvedPtr (ptr : Nat)
  | ChasePtrOutOfBounds (ptr : Nat)
  | ChaseCycle (ptr : Nat)
  | ChaseSliceOob (start size payload : Nat)
  | IdMissingName
  | IdInvalidNameType
  deriving DecidableEq, Repr

/-- Parsed block header (`BHead`): `len`/`nr` are non-negative by parse-time
checks, hence `Nat`. -/
structure BHead where
  code : Bytes
  sdna_nr : Nat
  old : Nat
  len : Nat
  nr : Nat
  deriving DecidableEq, Repr

/-- One file block: header plus payload view (`Block`). -/
structure Block where
  head : BHead
  payload : Bytes
  file_offset : Nat
  deriving DecidableEq, Repr

/-- One SDNA field declaration (`DnaField`). -/
structure DnaField where
  type_idx : Nat
  name_idx : Nat
  deriving DecidableEq, Repr

/-- One SDNA struct declaration (`DnaStruct`). -/
structure DnaStruct where
  type_idx : Nat
  fields : List DnaField
  deriving DecidableEq, Repr

/-- Parsed SDNA tables (`Dna`). -/
structure Dna where
  names : List Bytes
  types : List Bytes
  tlen : List Nat
  structs : List DnaStruct
  struct_for_type : List (Option Nat)
  deriving DecidableEq, Repr

/-- `Dna::struct_by_sdna`. -/
def Dna.struct_by_sdna (dna : Dna) (sdna_nr : Nat) : Option DnaStruct :=
  dna.structs.get? sdna_nr

/-- `Dna::type_name`. Rust indexes the table directly (panicking out of
range); theorems only instantiate in-range indices, where `getD` agrees. -/
def Dna.type_name (dna : Dna) (type_idx : Nat) : Bytes :=
  dna.types.getD type_idx []

/-- `Dna::field_name`; same in-range convention as `Dna.type_name`. -/
def Dna.field_name (dna : Dna) (name_idx : Nat) : Bytes :=
  dna.names.getD name_idx []

/-- One indexed pointer range entry (`PtrEntry`). -/
structure PtrEntry where
  start_old : Nat
  end_old : Nat
  block : Block
  deriving DecidableEq, Repr

/-- Result of mapping a pointer to an indexed range (`ResolvedPtr`). -/
structure ResolvedPtr where
  entry : PtrEntry
  byte_offset : Nat
  deriving DecidableEq, Repr

/-- Resolved pointer with SDNA element positioning (`TypedResolvedPtr`). -/
structure TypedResolvedPtr where
  base : ResolvedPtr
  struct_size : Nat
  element_index : Option Nat
  element_offset : Nat
  deriving DecidableEq, Repr

/-- `ResolvedPtr::payload`. -/
def ResolvedPtr.payload (r : ResolvedPtr) : Bytes := r.entry.block.payload

/-- Range index for resolving old-memory pointers (`PointerIndex`).
The source also stores the parallel `starts` array; it is derived here. -/
structure PointerIndex where
  entries : List PtrEntry
  deriving DecidableEq, Repr

/-- Models `slice::partition_point`: number of leading elements satisfying
the predicate. Its Rust contract requires the slice to be partitioned by
the predicate; the index stores `starts` sorted ascending, so the predicate
`start <= ptr` is partitioned wherever the source calls it. -/
def partitionPoint (p : α → Bool) (l : List α) : Nat :=
  (l.takeWhile p).length

/-- The derived `starts` array of the index. -/
def PointerIndex.starts (idx : PointerIndex) : List Nat :=
  idx.entries.map (·.start_old)

/-- `PointerIndex::resolve`. -/
def PointerIndex.resolve (idx : PointerIndex) (ptr : Nat) : Option ResolvedPtr :=
  if ptr = 0 then none
  else
    let i := partitionPoint (fun start => decide (start ≤ ptr)) idx.starts
    if i = 0 then none
    else
      match idx.entries.get? (i - 1) with
      | none => none
      | some entry =>
          if entry.end_old ≤ ptr then none
          else some { entry := entry, byte_offset := ptr - entry.start_old }

/-- `PointerIndex::resolve_typed`. The source's `usize::try_from` on the
`u64` count and its `checked_mul` cannot fail for in-range table data;
`Nat` arithmetic models them directly. -/
def PointerIndex.resolve_typed (idx : PointerIndex) (dna : Dna) (ptr : Nat) :
    Option TypedResolvedPtr := do
  let base ← idx.resolve ptr
  let item ← dna.struct_by_sdna base.entry.block.head.sdna_nr
  let struct_size := dna.tlen.getD item.type_idx 0
  if struct_size = 0 then
    return { base := base, struct_size := struct_size,
             element_index := none, element_offset := base.byte_offset }
  else
    let nr := base.entry.block.head.nr
    let max_bytes := struct_size * nr
    if base.byte_offset < max_bytes then
      return { base := base, struct_size := struct_size,
               element_index := some (base.byte_offset / struct_size),
               element_offset := base.byte_offset % struct_size }
    else
      return { base := base, struct_size := struct_size,
               element_index := none,
               element_offset := base.byte_offset % struct_size }

/-- `PointerIndex::canonical_ptr`. The source's `checked_mul`/`checked_add`
on `u64` cannot overflow because `element_index * struct_size` is at most
`byte_offset` and `start_old + byte_offset = ptr` is a `u64`. -/
def PointerIndex.canonical_ptr (idx : PointerIndex) (dna : Dna) (ptr : Nat) :
    Option Nat := do
  let typed ← idx.resolve_typed dna ptr
  let element_index ← typed.element_index
  return typed.base.entry.start_old + element_index * typed.struct_size

end Blendoc

namespace Blendoc

theorem resolve_zero (idx : PointerIndex) : idx.resolve 0 = none := by
  simp [PointerIndex.resolve]

theorem resolve_typed_zero (idx : PointerIndex) (dna : Dna) :
    idx.resolve_typed dna 0 = none := by
  simp [PointerIndex.resolve_typed, resolve_zero, Option.bind]

/-- C10: for every pointer index, however built, `resolve` and
`resolve_typed` return `none` on the null pointer, so no traversal treats
pointer value 0 as a resolvable target. -/
theorem claim_C10_null_never_resolves (idx : PointerIndex) (dna : Dna) :
    idx.resolve 0 = none ∧ idx.resolve_typed dna 0 = none :=
  ⟨resolve_zero idx, resolve_typed_zero idx dna⟩

theorem partitionPoint_append_cons (p : α → Bool) (l₁ : List α) (e : α)
    (l₂ : List α) (h₁ : ∀ a ∈ l₁, p a = true) (he : p e = true)
    (h₂ : ∀ a ∈ l₂.take 1, p a = false) :
    partitionPoint p (l₁ ++ e :: l₂) = l₁.length + 1 := by
  induction l₁ with
  | nil =>
      simp only [List.nil_append, partitionPoint, List.takeWhile, he]
      cases l₂ with
      | nil => simp
      | cons hd tl =>
          have hhd : p hd = false := h₂ hd (by simp)
          simp [List.takeWhile, hhd]
  | cons a l₁ ih =>
      have ha : p a = true := h₁ a (by simp)
      have ih' := ih (fun x hx => h₁ x (by simp [hx]))
      simp only [List.cons_append, partitionPoint, List.takeWhile, ha] at *
      simp [ih']

/-- Range-resolution lemma for a sorted, disjoint index: any pointer inside
an entry's half-open range resolves to that entry with
`byte_offset = ptr - start_old`. -/
theorem resolve_mem_range (l₁ l₂ : List PtrEntry) (e : PtrEntry) (ptr : Nat)
    (hchain : (l₁ ++ e :: l₂).Pairwise (fun a b => a.end_old ≤ b.start_old))
    (hrange : ∀ a ∈ l₁ ++ e :: l₂, a.start_old ≤ a.end_old)
    (hs : e.start_old ≤ ptr) (hend : ptr < e.end_old) (hpos : 0 < ptr) :
    (PointerIndex.mk (l₁ ++ e :: l₂)).resolve ptr =
      some ⟨e, ptr - e.start_old⟩ := by
  have hstarts :
      (PointerIndex.mk (l₁ ++ e :: l₂)).starts =
        l₁.map (·.start_old) ++ e.start_old :: l₂.map (·.start_old) := by
    simp [PointerIndex.starts]
  have hpairs := (List.pairwise_append.mp hchain)
  have hcount :
      partitionPoint (fun start => decide (start ≤ ptr))
        (l₁.map (·.start_old) ++ e.start_old :: l₂.map (·.start_old)) =
        l₁.length + 1 := by
    have h1 : ∀ a ∈ l₁.map (·.start_old), decide (a ≤ ptr) = true := by
      intro a ha
      rcases List.mem_map.mp ha with ⟨x, hx, rfl⟩
      have hxe : x.end_old ≤ e.start_old := hpairs.2.2 x hx e (by simp)
      have hxx : x.start_old ≤ x.end_old := hrange x (by simp [hx])
      simp; omega
    have he' : decide (e.start_old ≤ ptr) = true := by simp [hs]
    have h2 : ∀ a ∈ (l₂.map (·.start_old)).take 1, decide (a ≤ ptr) = false := by
      intro a ha
      cases l₂ with
      | nil => simp at ha
      | cons hd tl =>
          simp only [List.map_cons, List.take_succ_cons, List.take_zero,
            List.mem_singleton] at ha
          subst ha
          have : e.end_old ≤ hd.start_old :=
            (List.pairwise_cons.mp hpairs.2.1).1 hd (by simp)
          simp; omega
    have := partitionPoint_append_cons (fun start => decide (start ≤ ptr))
      (l₁.map (·.start_old)) e.start_old (l₂.map (·.start_old)) h1 he' h2
    simpa using this
  have hget : (l₁ ++ e :: l₂).get? l₁.length = some e := by
    rw [List.get?_eq_getElem?, List.getElem?_append_right (Nat.le_refl _)]
    simp
  simp only [PointerIndex.resolve, hstarts, hcount]
  have hne : ¬ ptr = 0 := by omega
  simp only [hne, if_false]
  have : ¬ (l₁.length + 1 = 0) := by omega
  simp only [this, if_false, Nat.add_sub_cancel, hget]
  have : ¬ e.end_old ≤ ptr := by omega
  simp [this]

/-- C1: in the `AddressRanges` interpretation, over a sorted disjoint index
(a) every pointer in an entry's `[start_old, end_old)` range resolves to
that entry with `byte_offset = ptr - start_old`, and (b) any two interior
pointers into the same struct instance (element `k` of the same block)
canonicalize to the same value `start_old + k * struct_size` and resolve
to the same entry and element index. -/
theorem claim_C1_resolution_and_canonicality
    (l₁ l₂ : List PtrEntry) (e : PtrEntry) (dna : Dna) (item : DnaStruct)
    (k p1 p2 : Nat)
    (hchain : (l₁ ++ e :: l₂).Pairwise (fun a b => a.end_old ≤ b.start_old))
    (hrange : ∀ a ∈ l₁ ++ e :: l₂, a.start_old ≤ a.end_old)
    (hpos : 0 < e.start_old)
    (hitem : dna.struct_by_sdna e.block.head.sdna_nr = some item)
    (hsize : 0 < dna.tlen.getD item.type_idx 0)
    (hk : k < e.block.head.nr)
    (hfit : e.start_old + e.block.head.nr * dna.tlen.getD item.type_idx 0 ≤
      e.end_old)
    (hp1l : e.start_old + k * dna.tlen.getD item.type_idx 0 ≤ p1)
    (hp1r : p1 < e.start_old + (k + 1) * dna.tlen.getD item.type_idx 0)
    (hp2l : e.start_old + k * dna.tlen.getD item.type_idx 0 ≤ p2)
    (hp2r : p2 < e.start_old + (k + 1) * dna.tlen.getD item.type_idx 0) :
    (∀ p, e.start_old ≤ p → p < e.end_old →
      (PointerIndex.mk (l₁ ++ e :: l₂)).resolve p =
        some ⟨e, p - e.start_old⟩) ∧
    (PointerIndex.mk (l₁ ++ e :: l₂)).canonical_ptr dna p1 =
      some (e.start_old + k * dna.tlen.getD item.type_idx 0) ∧
    (PointerIndex.mk (l₁ ++ e :: l₂)).canonical_ptr dna p2 =
      some (e.start_old + k * dna.tlen.getD item.type_idx 0) ∧
    (∀ p, e.start_old + k * dna.tlen.getD item.type_idx 0 ≤ p →
      p < e.start_old + (k + 1) * dna.tlen.getD item.type_idx 0 →
      (PointerIndex.mk (l₁ ++ e :: l₂)).resolve_typed dna p =
        some { base := ⟨e, p - e.start_old⟩,
               struct_size := dna.tlen.getD item.type_idx 0,
               element_index := some k,
               element_offset := (p - e.start_old) %
                 dna.tlen.getD item.type_idx 0 }) := by
  set size := dna.tlen.getD item.type_idx 0 with hsz
  have hres : ∀ p, e.start_old ≤ p → p < e.end_old →
      (PointerIndex.mk (l₁ ++ e :: l₂)).resolve p =
        some ⟨e, p - e.start_old⟩ := by
    intro p hl hr
    exact resolve_mem_range l₁ l₂ e p hchain hrange hl hr (by omega)
  have htyped : ∀ p, e.start_old + k * size ≤ p →
      p < e.start_old + (k + 1) * size →
      (PointerIndex.mk (l₁ ++ e :: l₂)).resolve_typed dna p =
        some { base := ⟨e, p - e.start_old⟩, struct_size := size,
               element_index := some k,
               element_offset := (p - e.start_old) % size } := by
    intro p hl hr
    have hkk : k * size ≤ e.block.head.nr * size :=
      Nat.mul_le_mul_right _ (Nat.le_of_lt hk)
    have hk1 : (k + 1) * size ≤ e.block.head.nr * size :=
      Nat.mul_le_mul_right _ hk
    have hpe : p < e.end_old := by
      have : e.start_old + (k + 1) * size ≤ e.end_old := by
        calc e.start_old + (k + 1) * size
            ≤ e.start_old + e.block.head.nr * size := by omega
          _ ≤ e.end_old := hfit
      omega
    have hps : e.start_old ≤ p := by nlinarith
    have hresolve := hres p hps hpe
    have hoff_lo : k * size ≤ p - e.start_old := by omega
    have hoff_hi : p - e.start_old < (k + 1) * size := by omega
    have hmax : p - e.start_old < size * e.block.head.nr := by
      rw [Nat.mul_comm]; omega
    have hdiv : (p - e.start_old) / size = k :=
      Nat.div_eq_of_lt_le (by omega) (by omega)
    have hnz : ¬ size = 0 := by omega
    have hgd : dna.tlen[item.type_idx]?.getD 0 = size := by
      rw [hsz, List.getD_eq_getElem?_getD]
    simp [PointerIndex.resolve_typed, hresolve, hitem, hgd, hnz, hmax, hdiv,
      List.getD_eq_getElem?_getD]
  refine ⟨hres, ?_, ?_, htyped⟩
  · have := htyped p1 hp1l hp1r
    simp [PointerIndex.canonical_ptr, this, Option.bind]
  · have := htyped p2 hp2l hp2r
    simp [PointerIndex.canonical_ptr, this, Option.bind]

/-- Minimal SDNA with one struct `Node { Node *next; }` of size 8, used as
a concrete test fixture. -/
def nodeDna : Dna :=
  { names := [bs "*next"], types := [bs "Node"], tlen := [8],
    structs := [⟨0, [⟨0, 0⟩]⟩], struct_for_type := [some 0] }

/-- Concrete two-element array block at old pointer 4096 for the C1 witness. -/
def c1Entry : PtrEntry :=
  ⟨4096, 4112, ⟨⟨bs "DATA", 0, 4096, 16, 2⟩, List.replicate 16 0, 0⟩⟩

theorem claim_C1_witness :
    (PointerIndex.mk [c1Entry]).canonical_ptr nodeDna 4104 = some 4104 ∧
    (PointerIndex.mk [c1Entry]).canonical_ptr nodeDna 4108 = some 4104 := by
  have h := claim_C1_resolution_and_canonicality [] [] c1Entry nodeDna
    ⟨0, [⟨0, 0⟩]⟩ 1 4104 4108
    (by simp) (by intro a ha; simp [c1Entry] at ha; simp [ha, c1Entry])
    (by simp [c1Entry]) (by rfl) (by simp [nodeDna]) (by simp [c1Entry])
    (by simp [c1Entry, nodeDna]) (by simp [c1Entry, nodeDna])
    (by simp [c1Entry, nodeDna]) (by simp [c1Entry, nodeDna])
    (by simp [c1Entry, nodeDna])
  exact ⟨h.2.1, h.2.2.1⟩

end Blendoc

namespace Blendoc

/-! Header parsing (`crates/blendoc_core/src/blend/header.rs`). -/

/-- Byte endianness marker stored in blend headers (`Endianness`). -/
inductive Endianness where
  | Little
  | Big
  deriving DecidableEq, Repr

/-- Parsed blend file header fields (`BlendHeader`). -/
structure BlendHeader where
  header_size : Nat
  format_version : Nat
  version : Nat
  pointer_size : Nat
  endianness : Endianness
  deriving DecidableEq, Repr

/-- Sub-slice `l[a..b]` of a byte list. -/
def slice (l : Bytes) (a b : Nat) : Bytes := (l.drop a).take (b - a)

/-- `is_ascii_digit` on a byte. -/
def isAsciiDigit (b : Nat) : Bool := 48 ≤ b && b ≤ 57

/-- `parse_digits`: all-digit decimal parse (empty input fails). The
source accumulates into a `u16`; at most four digits occur, so no wrap. -/
def parse_digits (bytes : Bytes) : Option Nat :=
  if bytes = [] then none
  else
    bytes.foldlM (fun value b =>
      if isAsciiDigit b then some (value * 10 + (b - 48)) else none) 0

/-- `parse_endianness_marker`: `v` (118) little, `V` (86) big. -/
def parse_endianness_marker (b : Nat) : Option Endianness :=
  if b = 118 then some .Little
  else if b = 86 then some .Big
  else none

/-- `BlendHeader::MIN_SIZE`. -/
def MIN_SIZE : Nat := 17
/-- `BlendHeader::LEGACY_SIZE`. -/
def LEGACY_SIZE : Nat := 12

/-- `BlendHeader::parse_v1`. -/
def BlendHeader.parse_v1 (bytes : Bytes) : Except BlendError BlendHeader :=
  if bytes.length < MIN_SIZE then .error .InvalidHeader
  else
    let header := bytes.take MIN_SIZE
    match parse_digits (slice header 7 9) with
    | none => .error .InvalidHeader
    | some header_size =>
      if header_size < MIN_SIZE then .error .InvalidHeader
      else if bytes.length < header_size then
        .error (.UnexpectedEof bytes.length (header_size - bytes.length) 0)
      else if header.getD 9 0 ≠ 45 then .error .InvalidHeader
      else
        match parse_digits (slice header 10 12) with
        | none => .error .InvalidHeader
        | some format_version =>
          if format_version ≠ 1 then
            .error (.UnsupportedFormatVersion format_version)
          else if header_size ≠ 17 then
            .error (.UnsupportedPointerSize header_size)
          else
            match parse_endianness_marker (header.getD 12 0) with
            | none => .error .InvalidHeader
            | some endianness =>
              match parse_digits (slice header 13 17) with
              | none => .error .InvalidHeader
              | some version =>
                .ok { header_size := header_size,
                      format_version := format_version,
                      version := version, pointer_size := 8,
                      endianness := endianness }

/-- Continuation of `BlendHeader::parse_legacy` after the pointer-size
byte has been decoded (the source computes `pointer_size` by an early
returning `match` and then falls through to this tail). -/
def BlendHeader.parse_legacy_tail (header : Bytes) (pointer_size : Nat) :
    Except BlendError BlendHeader :=
  match parse_endianness_marker (header.getD 8 0) with
  | none => .error .InvalidHeader
  | some endianness =>
    match parse_digits (slice header 9 12) with
    | none => .error .InvalidHeader
    | some version =>
      .ok { header_size := LEGACY_SIZE, format_version := 0,
            version := version, pointer_size := pointer_size,
            endianness := endianness }

/-- `BlendHeader::parse_legacy`. -/
def BlendHeader.parse_legacy (bytes : Bytes) : Except BlendError BlendHeader :=
  if bytes.length < LEGACY_SIZE then .error .InvalidHeader
  else
    let header := bytes.take LEGACY_SIZE
    if header.getD 7 0 = 95 then BlendHeader.parse_legacy_tail header 4
    else if header.getD 7 0 = 45 then BlendHeader.parse_legacy_tail header 8
    else .error .InvalidHeader

/-- `BlendHeader::parse`: discriminates on whether byte 7 is an ASCII
digit. -/
def BlendHeader.parse (bytes : Bytes) : Except BlendError BlendHeader :=
  if bytes.length < 7 then .error .InvalidHeader
  else if bytes.take 7 ≠ bs "BLENDER" then .error .InvalidHeader
  else
    match bytes.get? 7 with
    | none => .error .InvalidHeader
    | some kind =>
        if isAsciiDigit kind then BlendHeader.parse_v1 bytes
        else BlendHeader.parse_legacy bytes

theorem parse_endianness_marker_some {b : Nat} {e : Endianness}
    (h : parse_endianness_marker b = some e) : b = 118 ∨ b = 86 := by
  unfold parse_endianness_marker at h
  split at h
  · left; assumption
  · split at h
    · right; assumption
    · exact Option.noConfusion h

theorem getD_take {l : Bytes} {n i d : Nat} (h : i < n) :
    (l.take n).getD i d = l.getD i d := by
  simp [List.getD, List.getElem?_take, h]

theorem parse_legacy_tail_ok {header : Bytes} {ps : Nat} {h : BlendHeader}
    (hok : BlendHeader.parse_legacy_tail header ps = .ok h) :
    h.header_size = 12 ∧ h.format_version = 0 ∧ h.pointer_size = ps ∧
      (header.getD 8 0 = 118 ∨ header.getD 8 0 = 86) := by
  unfold BlendHeader.parse_legacy_tail at hok
  split at hok
  · exact Except.noConfusion hok
  · rename_i endian hem
    split at hok
    · exact Except.noConfusion hok
    · cases hok
      exact ⟨rfl, rfl, rfl, parse_endianness_marker_some hem⟩

/-- C2: header parsing accepts exactly the two forms, selected by whether
byte 7 is an ASCII digit; the legacy form is 12 bytes with `_` meaning
4-byte and `-` meaning 8-byte pointers and endian marker `v`/`V`; the
modern v1 form is 17 bytes with pointer size fixed at 8; and a modern
header with Blender version 499 (< 500) parses successfully. -/
theorem claim_C2_header_forms :
    (∀ bytes kind, bytes.take 7 = bs "BLENDER" → bytes.get? 7 = some kind →
      (isAsciiDigit kind = true →
        BlendHeader.parse bytes = BlendHeader.parse_v1 bytes) ∧
      (isAsciiDigit kind = false →
        BlendHeader.parse bytes = BlendHeader.parse_legacy bytes)) ∧
    (∀ bytes h, BlendHeader.parse_legacy bytes = .ok h →
      h.header_size = 12 ∧ h.format_version = 0 ∧
      ((bytes.getD 7 0 = 95 ∧ h.pointer_size = 4) ∨
       (bytes.getD 7 0 = 45 ∧ h.pointer_size = 8)) ∧
      (bytes.getD 8 0 = 118 ∨ bytes.getD 8 0 = 86)) ∧
    (∀ bytes h, BlendHeader.parse_v1 bytes = .ok h →
      h.header_size = 17 ∧ h.format_version = 1 ∧ h.pointer_size = 8) ∧
    BlendHeader.parse (bs "BLENDER17-01v0499") =
      .ok ⟨17, 1, 499, 8, .Little⟩ := by
  refine ⟨?_, ?_, ?_, by rfl⟩
  · intro bytes kind hpre hkind
    have hkind' : bytes[7]? = some kind := by
      simpa [← List.get?_eq_getElem?] using hkind
    have hlen : 7 < bytes.length := by
      by_contra hcon
      have : bytes[7]? = none := by
        rw [List.getElem?_eq_none_iff]; omega
      rw [this] at hkind'; exact Option.noConfusion hkind'
    have h1 : ¬ bytes.length < 7 := by omega
    refine ⟨fun hdig => ?_, fun hdig => ?_⟩ <;>
      simp [BlendHeader.parse, h1, hpre, hkind', hdig]
  · intro bytes h hok
    simp only [BlendHeader.parse_legacy, LEGACY_SIZE] at hok
    split at hok
    · exact Except.noConfusion hok
    · rename_i hlen
      split at hok
      · rename_i h7
        rw [getD_take (by omega)] at h7
        obtain ⟨ha, hb, hc, hd⟩ := parse_legacy_tail_ok hok
        rw [getD_take (by omega)] at hd
        exact ⟨ha, hb, Or.inl ⟨h7, hc⟩, hd⟩
      · split at hok
        · rename_i h7' h7
          rw [getD_take (by omega)] at h7
          obtain ⟨ha, hb, hc, hd⟩ := parse_legacy_tail_ok hok
          rw [getD_take (by omega)] at hd
          exact ⟨ha, hb, Or.inr ⟨h7, hc⟩, hd⟩
        · exact Except.noConfusion hok
  · intro bytes h hok
    simp only [BlendHeader.parse_v1, MIN_SIZE] at hok
    repeat' split at hok
    all_goals try exact Except.noConfusion hok
    cases hok
    simp_all

theorem claim_C2_witness :
    BlendHeader.parse_legacy (bs "BLENDER_V248") = .ok ⟨12, 0, 248, 4, .Big⟩ ∧
    ((⟨12, 0, 248, 4, .Big⟩ : BlendHeader).header_size = 12 ∧
     (⟨12, 0, 248, 4, .Big⟩ : BlendHeader).format_version = 0 ∧
     (((bs "BLENDER_V248").getD 7 0 = 95 ∧
        (⟨12, 0, 248, 4, .Big⟩ : BlendHeader).pointer_size = 4) ∨
      ((bs "BLENDER_V248").getD 7 0 = 45 ∧
        (⟨12, 0, 248, 4, .Big⟩ : BlendHeader).pointer_size = 8)) ∧
     ((bs "BLENDER_V248").getD 8 0 = 118 ∨ (bs "BLENDER_V248").getD 8 0 = 86)) :=
  ⟨by rfl,
   claim_C2_header_forms.2.1 (bs "BLENDER_V248") ⟨12, 0, 248, 4, .Big⟩
     (by rfl)⟩

end Blendoc

namespace Blendoc

/-! Compression container (`src/blend/compression.rs`). -/

/-- `BLEND_MAGIC`. -/
def BLEND_MAGIC : Bytes := bs "BLENDER"
/-- `MAX_DECOMPRESSED_BYTES`: 512 MiB ceiling. -/
def MAX_DECOMPRESSED_BYTES : Nat := 512 * 1024 * 1024
/-- `ZSTD_MAGIC`. -/
def ZSTD_MAGIC : Bytes := [40, 181, 47, 253]

/-- Compression mode detected for a source file (`Compression`). -/
inductive Compression where
  | None
  | Zstd
  deriving DecidableEq, Repr

/-- `first4`: first up-to-four bytes zero-padded to four. -/
def first4 (bytes : Bytes) : Bytes :=
  let t := bytes.take 4
  t ++ List.replicate (4 - t.length) 0

/-- The read loop of `decode_zstd`. The zstd stream decoder itself is the
external `zstd` crate; it is abstracted as the sequence of chunk buffers
the decoder yields (`read == 0`, i.e. an empty chunk or list end, stops
the loop). The cumulative-size ceiling check is the source's
`out.len() + read > MAX_DECOMPRESSED_BYTES`. -/
def decode_zstd_loop (out : Bytes) : List Bytes → Except BlendError Bytes
  | [] => .ok out
  | chunk :: rest =>
      if chunk.length = 0 then .ok out
      else if MAX_DECOMPRESSED_BYTES < out.length + chunk.length then
        .error (.DecompressedTooLarge MAX_DECOMPRESSED_BYTES)
      else decode_zstd_loop (out ++ chunk) rest

/-- `decode_zstd`, over the abstracted decoder chunk stream. -/
def decode_zstd (chunks : List Bytes) : Except BlendError Bytes :=
  match decode_zstd_loop [] chunks with
  | .error e => .error e
  | .ok out =>
      if BLEND_MAGIC.isPrefixOf out then .ok out
      else .error .NotBlendAfterDecompress

/-- `decode_bytes`: detect and decode compression. `zstdChunks` is the
abstracted output stream of the external zstd decoder for `raw`. -/
def decode_bytes (raw : Bytes) (zstdChunks : List Bytes) :
    Except BlendError (Compression × Bytes) :=
  if BLEND_MAGIC.isPrefixOf raw then .ok (.None, raw)
  else if ZSTD_MAGIC.isPrefixOf raw then
    match decode_zstd zstdChunks with
    | .error e => .error e
    | .ok out => .ok (.Zstd, out)
  else .error (.UnknownMagic (first4 raw))

theorem decode_zstd_loop_ok (chunks : List Bytes) (out : Bytes)
    (hne : ∀ c ∈ chunks, c ≠ [])
    (hlen : (out ++ chunks.flatten).length ≤ MAX_DECOMPRESSED_BYTES) :
    decode_zstd_loop out chunks = .ok (out ++ chunks.flatten) := by
  induction chunks generalizing out with
  | nil => simp [decode_zstd_loop]
  | cons c rest ih =>
      have hc : c ≠ [] := hne c (by simp)
      have hclen : c.length ≠ 0 := by
        simpa using fun h => hc (List.length_eq_zero.mp h)
      have hlen' : ((out ++ c) ++ rest.flatten).length ≤ MAX_DECOMPRESSED_BYTES := by
        simpa [List.append_assoc] using hlen
      have hbound : ¬ MAX_DECOMPRESSED_BYTES < out.length + c.length := by
        have := hlen
        simp [List.length_append] at this ⊢
        omega
      rw [decode_zstd_loop]
      simp only [hclen, if_false, hbound, ite_false, reduceIte]
      rw [ih (out ++ c) (fun x hx => hne x (by simp [hx])) hlen']
      simp [List.append_assoc]

theorem zstd_prefix_not_blender {raw : Bytes}
    (h : ZSTD_MAGIC.isPrefixOf raw = true) :
    BLEND_MAGIC.isPrefixOf raw = false := by
  cases raw with
  | nil => simp [ZSTD_MAGIC, List.isPrefixOf] at h
  | cons b rest =>
      have hb : b = 40 := by
        simp [ZSTD_MAGIC, List.isPrefixOf] at h
        omega
      subst hb
      simp [BLEND_MAGIC, bs, List.isPrefixOf]

/-- C6: container round-trip — a `BLENDER`-headed input is returned
unchanged with compression `None`; a zstd-headed input whose decoded
stream is `BLENDER`-headed and within the 512 MiB ceiling decodes
bit-for-bit to that stream with compression `Zstd`; any other leading
magic fails with `UnknownMagic`; and a decoded stream not starting with
`BLENDER` fails with `NotBlendAfterDecompress`. -/
theorem claim_C6_container_roundtrip :
    (∀ (raw : Bytes) (chunks : List Bytes),
      BLEND_MAGIC.isPrefixOf raw = true →
      decode_bytes raw chunks = .ok (.None, raw)) ∧
    (∀ (raw : Bytes) (chunks : List Bytes),
      ZSTD_MAGIC.isPrefixOf raw = true →
      (∀ c ∈ chunks, c ≠ []) →
      chunks.flatten.length ≤ MAX_DECOMPRESSED_BYTES →
      BLEND_MAGIC.isPrefixOf chunks.flatten = true →
      decode_bytes raw chunks = .ok (.Zstd, chunks.flatten)) ∧
    (∀ (raw : Bytes) (chunks : List Bytes),
      BLEND_MAGIC.isPrefixOf raw = false →
      ZSTD_MAGIC.isPrefixOf raw = false →
      decode_bytes raw chunks = .error (.UnknownMagic (first4 raw))) ∧
    (∀ (raw : Bytes) (chunks : List Bytes),
      ZSTD_MAGIC.isPrefixOf raw = true →
      (∀ c ∈ chunks, c ≠ []) →
      chunks.flatten.length ≤ MAX_DECOMPRESSED_BYTES →
      BLEND_MAGIC.isPrefixOf chunks.flatten = false →
      decode_bytes raw chunks = .error .NotBlendAfterDecompress) := by
  refine ⟨?_, ?_, ?_, ?_⟩
  · intro raw chunks hpre
    simp [decode_bytes, hpre]
  · intro raw chunks hz hne hlen hjoin
    have hnb := zstd_prefix_not_blender hz
    have hloop := decode_zstd_loop_ok chunks [] hne (by simpa using hlen)
    simp only [List.nil_append] at hloop
    simp [decode_bytes, hnb, hz, decode_zstd, hloop, hjoin]
  · intro raw chunks hnb hnz
    simp [decode_bytes, hnb, hnz]
  · intro raw chunks hz hne hlen hjoin
    have hnb := zstd_prefix_not_blender hz
    have hloop := decode_zstd_loop_ok chunks [] hne (by simpa using hlen)
    simp only [List.nil_append] at hloop
    simp [decode_bytes, hnb, hz, decode_zstd, hloop, hjoin]

theorem claim_C6_witness :
    decode_bytes (bs "BLENDER-v302") [] = .ok (.None, bs "BLENDER-v302") ∧
    decode_bytes ZSTD_MAGIC [bs "BLENDER"] = .ok (.Zstd, bs "BLENDER") := by
  constructor
  · exact claim_C6_container_roundtrip.1 (bs "BLENDER-v302") [] (by decide)
  · have h := claim_C6_container_roundtrip.2.1 ZSTD_MAGIC [bs "BLENDER"]
      (by decide) (by decide) (by decide) (by decide)
    simpa using h

end Blendoc

namespace Blendoc

/-! Bounded byte cursor (`blend/bytes.rs`). -/

/-- Bounded cursor over an immutable byte slice (`Cursor`). -/
structure Cursor where
  bytes : Bytes
  pos : Nat
  deriving DecidableEq, Repr

/-- `Cursor::new`. -/
def Cursor.new (bytes : Bytes) : Cursor := ⟨bytes, 0⟩

/-- `Cursor::remaining`. -/
def Cursor.remaining (c : Cursor) : Nat := c.bytes.length - c.pos

/-- `Cursor::read_exact`: returns the `n`-byte slice and the advanced
cursor. -/
def Cursor.read_exact (c : Cursor) (n : Nat) : Except BlendError (Bytes × Cursor) :=
  if c.remaining < n then .error (.UnexpectedEof c.pos n c.remaining)
  else .ok ((c.bytes.drop c.pos).take n, ⟨c.bytes, c.pos + n⟩)

/-- `Cursor::read_code4`. -/
def Cursor.read_code4 (c : Cursor) : Except BlendError (Bytes × Cursor) :=
  c.read_exact 4

/-- `Cursor::read_u16_le`. -/
def Cursor.read_u16_le (c : Cursor) : Except BlendError (Nat × Cursor) :=
  (c.read_exact 2).map (fun r => (readLE r.1, r.2))

/-- `Cursor::read_u32_le`. -/
def Cursor.read_u32_le (c : Cursor) : Except BlendError (Nat × Cursor) :=
  (c.read_exact 4).map (fun r => (readLE r.1, r.2))

/-- `Cursor::read_u64_le`. -/
def Cursor.read_u64_le (c : Cursor) : Except BlendError (Nat × Cursor) :=
  (c.read_exact 8).map (fun r => (readLE r.1, r.2))

/-- `Cursor::align4`: advance to the next 4-byte aligned position
(`(pos + 3) & !3`, which on naturals is `4 * ((pos + 3) / 4)`). -/
def Cursor.align4 (c : Cursor) : Except BlendError Cursor :=
  let aligned := 4 * ((c.pos + 3) / 4)
  let skip := aligned - c.pos
  (c.read_exact skip).map (·.2)

/-- `Cursor::read_cstring_bytes`: up to but not including the NUL. -/
def Cursor.read_cstring_bytes (c : Cursor) :
    Except BlendError (Bytes × Cursor) :=
  let rem := c.bytes.drop c.pos
  match rem.findIdx? (· == 0) with
  | none => .error (.UnexpectedEof c.pos 1 c.remaining)
  | some rel_end => .ok (rem.take rel_end, ⟨c.bytes, c.pos + rel_end + 1⟩)

end Blendoc

namespace Blendoc

/-! Field declarator parser (`blend/decl.rs`). Rust `str` searches and
slicing are byte-indexed, so the parser is modelled directly on the byte
list; whitespace trimming is modelled for the ASCII whitespace that
declarators can contain. -/

/-- `usize::MAX` on the 64-bit targets the source supports. -/
def USIZE_MAX : Nat := 2 ^ 64 - 1

/-- `usize::saturating_mul`. -/
def satMul (a b : Nat) : Nat := min (a * b) USIZE_MAX

/-- ASCII whitespace test for `str::trim`. -/
def isWs (b : Nat) : Bool := b = 32 || b = 9 || b = 10 || b = 13

/-- `str::trim` at the byte level. -/
def trimBytes (l : Bytes) : Bytes :=
  (l.dropWhile isWs).reverse.dropWhile isWs |>.reverse

/-- `str::find(pattern)`: byte index of the first occurrence of `pat`. -/
def findSub (pat : Bytes) : Bytes → Option Nat
  | [] => if pat.isEmpty then some 0 else none
  | x :: rest =>
      if pat.isPrefixOf (x :: rest) then some 0
      else (findSub pat rest).map (· + 1)

/-- `str::contains(pattern)`. -/
def containsSub (pat l : Bytes) : Bool := (findSub pat l).isSome

/-- `str::find(char)` for an ASCII byte. -/
def findByte (b : Nat) (l : Bytes) : Option Nat := l.findIdx? (· == b)

/-- Count of leading occurrences of byte `b` (`chars().take_while`). -/
def countLeading (b : Nat) (l : Bytes) : Nat := (l.takeWhile (· == b)).length

/-- `usize::from_str` on an ASCII decimal (optionally `+`-signed) string;
overflow, which cannot occur for declarator dimensions, is not modelled. -/
def parseUsize (s : Bytes) : Option Nat :=
  let digits := if s.head? = some 43 then s.tail else s
  if digits = [] then none
  else if digits.all (fun b => 48 ≤ b && b ≤ 57) then
    some (digits.foldl (fun acc b => acc * 10 + (b - 48)) 0)
  else none

/-- Parsed SDNA field declarator details (`FieldDecl`). -/
structure FieldDecl where
  ident : Bytes
  ptr_depth : Nat
  inline_array : Nat
  is_func_ptr : Bool
  is_paren_ptr : Bool
  deriving DecidableEq, Repr

/-- The array-suffix loop at the end of `parse_field_decl`: multiply out
`[n]...[m]` dimensions with `unwrap_or(1)` per dimension and saturating
multiplication. The loop consumes at least two bytes of `tail` per
iteration, so a fuel of `tail.length + 1` can never be exhausted before
the `find` fails; the fuel only makes the recursion structural. -/
def arrayCountFuel : Nat → Bytes → Nat → Nat
  | 0, _, total => total
  | fuel + 1, tail, total =>
      match findByte 91 tail with
      | none => total
      | some start =>
          match findByte 93 (tail.drop (start + 1)) with
          | none => total
          | some rel =>
              let dim :=
                (parseUsize (trimBytes ((tail.drop (start + 1)).take rel))).getD 1
              arrayCountFuel fuel (tail.drop (start + 1 + rel + 1))
                (satMul total dim)

/-- Entry point of the array-suffix loop. -/
def arrayCount (tail : Bytes) (total : Nat) : Nat :=
  arrayCountFuel (tail.length + 1) tail total

/-- The shared non-parenthesized tail of `parse_field_decl`: leading-star
counting, identifier extraction, and (unless the declarator is a
parenthesized or function pointer) array-suffix counting. -/
def parse_field_decl_tail (trimmed : Bytes) (base : FieldDecl) : FieldDecl :=
  let stars := countLeading 42 trimmed
  let decl1 := { base with ptr_depth := stars % 256 }
  let tail0 := trimmed.drop stars
  let ident_end := (findByte 91 tail0).getD tail0.length
  let ident := trimBytes (tail0.take ident_end)
  let decl2 := if ident = [] then decl1 else { decl1 with ident := ident }
  let tail := tail0.drop ident_end
  if decl2.is_paren_ptr || decl2.is_func_ptr then decl2
  else { decl2 with inline_array := arrayCount tail 1 }

/-- `parse_field_decl`: normalize a raw SDNA declarator. The `(*name)`
branch returns early; a `(*` without a closing `)` falls through to the
shared tail, as in the source. `(stars as u8).saturating_add(1)` is the
truncate-then-saturate on the star count. -/
def parse_field_decl (raw : Bytes) : FieldDecl :=
  let trimmed := trimBytes raw
  let base : FieldDecl :=
    { ident := trimmed, ptr_depth := 0, inline_array := 1,
      is_func_ptr := containsSub [41, 40] trimmed, is_paren_ptr := false }
  match findSub [40, 42] trimmed with
  | some start =>
      let after := trimmed.drop (start + 2)
      match findByte 41 after with
      | some close_idx =>
          let inside := after.take close_idx
          let stars := countLeading 42 inside
          let ident := trimBytes (inside.dropWhile (· == 42))
          { base with
            ptr_depth := min (stars % 256 + 1) 255,
            ident := if ident = [] then trimmed else ident,
            is_paren_ptr := true,
            inline_array := 1 }
      | none => parse_field_decl_tail trimmed base
  | none => parse_field_decl_tail trimmed base

example : parse_field_decl (bs "(*next)") =
    ⟨bs "next", 1, 1, false, true⟩ := by decide
example : parse_field_decl (bs "(**func)") =
    ⟨bs "func", 2, 1, false, true⟩ := by decide
example : parse_field_decl (bs "weights[0]") =
    ⟨bs "weights", 0, 0, false, false⟩ := by decide
example : parse_field_decl (bs "*next") =
    ⟨bs "next", 1, 1, false, false⟩ := by decide
example : parse_field_decl (bs "co[3][4]") =
    ⟨bs "co", 0, 12, false, false⟩ := by decide

end Blendoc

namespace Blendoc

/-! Decoded value trees (`blend/value.rs`) and the SDNA decoder
(`blend/decode.rs`). `f32`/`f64` values are represented by their raw
little-endian bit patterns (`from_le_bytes` is a bijection on bits and the
embedded operations never compute with the float values); `String` carries
the bytes before the source's `from_utf8_lossy`, which is the identity on
the ASCII content that reaches it and preserves emptiness. -/

/-- Decoded runtime value (`Value`). `Struct` is flattened into its type
name and named field list (`StructValue` / `FieldValue`). -/
inductive Value where
  | Null
  | Bool (b : Bool)
  | I64 (v : Int)
  | U64 (v : Nat)
  | F32 (bits : Nat)
  | F64 (bits : Nat)
  | Bytes (bytes : List Nat)
  | String (bytes : List Nat)
  | Ptr (p : Nat)
  | Array (items : List Value)
  | Struct (type_name : List Nat) (fields : List (List Nat × Value))
  deriving Repr

/-- `StructValue` as the pair of type name and named fields. -/
abbrev StructValue := Bytes × List (Bytes × Value)

/-- `POINTER_SIZE` (decode.rs). -/
def POINTER_SIZE : Nat := 8

/-- Decoder options (`DecodeOptions`). -/
structure DecodeOptions where
  max_depth : Nat
  max_array_elems : Nat
  include_padding : Bool
  decode_char_arrays_as_string : Bool
  strict_layout : Bool
  deriving DecidableEq, Repr

/-- `DecodeOptions::default`. -/
def DecodeOptions.default : DecodeOptions := ⟨16, 4096, false, true, false⟩

/-- `is_unsigned_type`. -/
def is_unsigned_type (type_name : Bytes) : Bool :=
  [117].isPrefixOf type_name || containsSub (bs "uint") type_name ||
    containsSub (bs "uchar") type_name

/-- Two's-complement reinterpretation of the low `bits` bits
(`value as iN as i64`). -/
def as_signed (value bits : Nat) : Int :=
  let w := value % 2 ^ bits
  if w < 2 ^ (bits - 1) then (w : Int) else (w : Int) - 2 ^ bits

/-- `decode_int_i64_or_u64`. -/
def decode_int_i64_or_u64 (type_name : Bytes) (value bits : Nat) : Value :=
  if is_unsigned_type type_name then .U64 value
  else .I64 (as_signed value
    (if bits = 8 ∨ bits = 16 ∨ bits = 32 ∨ bits = 64 then bits else 64))

/-- `decode_primitive`: dispatch on `(type_name, byte length)`; all
multi-byte recombinations are little-endian. -/
def decode_primitive (type_name : Bytes) (b : Bytes) : Value :=
  if type_name = bs "float" ∧ b.length = 4 then .F32 (readLE b)
  else if type_name = bs "double" ∧ b.length = 8 then .F64 (readLE b)
  else if type_name = bs "bool" ∧ b.length = 1 then .Bool (b.getD 0 0 ≠ 0)
  else if b.length = 1 then decode_int_i64_or_u64 type_name (readLE b) 8
  else if b.length = 2 then decode_int_i64_or_u64 type_name (readLE b) 16
  else if b.length = 4 then decode_int_i64_or_u64 type_name (readLE b) 32
  else if b.length = 8 then decode_int_i64_or_u64 type_name (readLE b) 64
  else .Bytes b

/-- `is_padding_field`. -/
def is_padding_field (ident type_name : Bytes) (inline_array : Nat) : Bool :=
  ((bs "_pad").isPrefixOf ident || (bs "pad").isPrefixOf ident) &&
    decide (0 < inline_array) &&
    (type_name = bs "char" || type_name = bs "uchar" ||
      type_name = bs "uint8_t")

/-- `skip_field_storage`. -/
def skip_field_storage (c : Cursor) (dna : Dna) (type_name : Bytes)
    (field_type_idx : Nat) (decl : FieldDecl) : Except BlendError Cursor :=
  let count := decl.inline_array
  if count = 0 then .ok c
  else
    let element_size :=
      if 0 < decl.ptr_depth || decl.is_func_ptr then POINTER_SIZE
      else if type_name = bs "void" then 1
      else
        let size := dna.tlen.getD field_type_idx 0
        if size = 0 then 1 else size
    (c.read_exact (satMul element_size count)).map (·.2)

/-- The per-count element loop of `decode_pointer_values`. -/
def read_ptr_values : Nat → Cursor → Except BlendError (List Value × Cursor)
  | 0, c => .ok ([], c)
  | n + 1, c => do
      let (v, c') ← c.read_u64_le
      let (vs, c'') ← read_ptr_values n c'
      .ok (.Ptr v :: vs, c'')

/-- `if count == 1 { values.pop().unwrap_or(Null) } else { Array }`. -/
def finish_values (count : Nat) (values : List Value) : Value :=
  if count = 1 then (values.getLast?).getD .Null else .Array values

/-- `decode_pointer_values`: `count` raw 8-byte little-endian pointers. -/
def decode_pointer_values (c : Cursor) (count : Nat) :
    Except BlendError (Value × Cursor) := do
  let (values, c') ← read_ptr_values count c
  .ok (finish_values count values, c')

/-- The per-count element loop of `decode_primitive_values`. -/
def read_prim_values (type_name : Bytes) (element_size : Nat) :
    Nat → Cursor → Except BlendError (List Value × Cursor)
  | 0, c => .ok ([], c)
  | n + 1, c => do
      let (b, c') ← c.read_exact element_size
      let (vs, c'') ← read_prim_values type_name element_size n c'
      .ok (decode_primitive type_name b :: vs, c'')

/-- `decode_primitive_values`. -/
def decode_primitive_values (c : Cursor) (type_name : Bytes)
    (element_size count : Nat) : Except BlendError (Value × Cursor) := do
  let (values, c') ← read_prim_values type_name element_size count c
  .ok (finish_values count values, c')

/-- The per-count nested-struct loop inside `decode_field_value`;
`recurse` is the recursive struct decode at the current depth. -/
def read_struct_values (recurse : Nat → Bytes → Except BlendError StructValue)
    (sdna_idx size : Nat) :
    Nat → Cursor → Except BlendError (List Value × Cursor)
  | 0, c => .ok ([], c)
  | n + 1, c => do
      let (b, c') ← c.read_exact size
      let nested ← recurse sdna_idx b
      let (vs, c'') ← read_struct_values recurse sdna_idx size n c'
      .ok (.Struct nested.1 nested.2 :: vs, c'')

/-- `decode_field_value`. The source passes its `depth` argument to the
recursive `decode_struct_impl` call; here that call arrives pre-applied
as `recurse`. -/
def decode_field_value (recurse : Nat → Bytes → Except BlendError StructValue)
    (c : Cursor) (dna : Dna) (field_type_idx : Nat) (type_name : Bytes)
    (decl : FieldDecl) (opt : DecodeOptions) :
    Except BlendError (Value × Cursor) :=
  let element_count := decl.inline_array
  if element_count = 0 then .ok (.Array [], c)
  else if opt.max_array_elems < element_count then
    .error (.DecodeArrayTooLarge element_count opt.max_array_elems)
  else if 0 < decl.ptr_depth || decl.is_func_ptr then
    decode_pointer_values c element_count
  else
    match dna.struct_for_type.getD field_type_idx none with
    | some sdna_idx =>
        let size := dna.tlen.getD field_type_idx 0
        if size = 0 then .ok (.Null, c)
        else do
          let (values, c') ←
            read_struct_values recurse sdna_idx size element_count c
          .ok (finish_values element_count values, c')
    | none =>
        if opt.decode_char_arrays_as_string && type_name = bs "char" &&
            decide (1 < element_count) then do
          let (b, c') ← c.read_exact element_count
          let end_ := (b.findIdx? (· == 0)).getD b.length
          .ok (.String (b.take end_), c')
        else
          decode_primitive_values c type_name (dna.tlen.getD field_type_idx 0)
            element_count

/-- The per-field loop of `decode_struct_impl`. -/
def decode_fields (recurse : Nat → Bytes → Except BlendError StructValue)
    (dna : Dna) (opt : DecodeOptions) :
    List DnaField → Cursor → Except BlendError (List (Bytes × Value) × Cursor)
  | [], c => .ok ([], c)
  | field :: rest, c =>
      let type_name := dna.type_name field.type_idx
      let name_raw := dna.field_name field.name_idx
      let decl := parse_field_decl name_raw
      if ¬ opt.include_padding ∧
          is_padding_field decl.ident type_name decl.inline_array then do
        let c' ← skip_field_storage c dna type_name field.type_idx decl
        decode_fields recurse dna opt rest c'
      else do
        let (value, c') ←
          decode_field_value recurse c dna field.type_idx type_name decl opt
        let (fields, c'') ← decode_fields recurse dna opt rest c'
        .ok ((decl.ident, value) :: fields, c'')

/-- `decode_struct_impl`. The source recursion is bounded by the depth
guard (`depth >= max_depth` fails before any deeper call); `fuel` is the
remaining bound `max_depth - depth` maintained by every caller, added only
to make the recursion structural. Because the depth guard is checked
first, the zero-fuel arm (given the caller invariant) is unreachable; it
returns the same depth error the guard would produce one level earlier. -/
def decode_struct_impl (dna : Dna) (sdna_nr : Nat) (bytes : Bytes)
    (opt : DecodeOptions) (depth : Nat) (fuel : Nat) :
    Except BlendError StructValue :=
  if opt.max_depth ≤ depth then .error (.DecodeDepthExceeded opt.max_depth)
  else
    match fuel with
    | 0 => .error (.DecodeDepthExceeded opt.max_depth)
    | fuel + 1 =>
      match dna.struct_by_sdna sdna_nr with
      | none => .error (.DecodeMissingSdna sdna_nr)
      | some item =>
          match decode_fields
              (fun sdna' bytes' =>
                decode_struct_impl dna sdna' bytes' opt (depth + 1) fuel)
              dna opt item.fields (Cursor.new bytes) with
          | .error e => .error e
          | .ok (fields, c') =>
              let type_name := dna.type_name item.type_idx
              if 0 < c'.remaining then
                if opt.strict_layout then
                  .error (.DecodeLayoutMismatch type_name c'.remaining)
                else
                  match c'.read_exact c'.remaining with
                  | .error e => .error e
                  | .ok _ => .ok (type_name, fields)
              else .ok (type_name, fields)

/-- `decode_struct_instance`. -/
def decode_struct_instance (dna : Dna) (sdna_nr : Nat) (bytes : Bytes)
    (opt : DecodeOptions) : Except BlendError StructValue :=
  decode_struct_impl dna sdna_nr bytes opt 0 opt.max_depth

/-- The per-instance loop of `decode_block_instances`. -/
def read_block_structs (dna : Dna) (sdna_nr struct_size : Nat)
    (opt : DecodeOptions) :
    Nat → Cursor → Except BlendError (List Value × Cursor)
  | 0, c => .ok ([], c)
  | n + 1, c => do
      let (b, c') ← c.read_exact struct_size
      let v ← decode_struct_impl dna sdna_nr b opt 0 opt.max_depth
      let (vs, c'') ← read_block_structs dna sdna_nr struct_size opt n c'
      .ok (.Struct v.1 v.2 :: vs, c'')

/-- `decode_block_instances`. The `usize::try_from` on the `u64` count and
the `checked_mul` cannot fail on 64-bit targets with in-range data. -/
def decode_block_instances (dna : Dna) (block : Block) (opt : DecodeOptions) :
    Except BlendError Value :=
  match dna.struct_by_sdna block.head.sdna_nr with
  | none => .error (.DecodeMissingSdna block.head.sdna_nr)
  | some struct_def =>
      let struct_size := dna.tlen.getD struct_def.type_idx 0
      let count := block.head.nr
      if opt.max_array_elems < count then
        .error (.DecodeArrayTooLarge count opt.max_array_elems)
      else
        let need := struct_size * count
        if block.payload.length < need then
          .error (.DecodePayloadTooSmall need block.payload.length)
        else
          match read_block_structs dna block.head.sdna_nr struct_size opt
              count (Cursor.new block.payload) with
          | .error e => .error e
          | .ok (values, _) =>
              if count = 1 then .ok ((values.getLast?).getD .Null)
              else .ok (.Array values)

end Blendoc

namespace Blendoc

/-- C4: decoder limits — (a) struct decoding at nesting depth `d` (the
source's `depth` parameter, one less than the 1-based nesting count) fails
with the depth error whenever `max_depth ≤ d`, i.e. exactly when the
1-based nesting depth exceeds `max_depth`; (b) a field whose inline array
count exceeds `max_array_elems` fails with the array-too-large error for
every cursor state, hence before any of that field's bytes are read. -/
theorem claim_C4_decoder_limits :
    (∀ (dna : Dna) (sdna_nr : Nat) (bytes : Bytes) (opt : DecodeOptions)
        (depth fuel : Nat), opt.max_depth ≤ depth →
      decode_struct_impl dna sdna_nr bytes opt depth fuel =
        .error (.DecodeDepthExceeded opt.max_depth)) ∧
    (∀ (recurse : Nat → Bytes → Except BlendError StructValue) (c : Cursor)
        (dna : Dna) (field_type_idx : Nat) (type_name : Bytes)
        (decl : FieldDecl) (opt : DecodeOptions),
      opt.max_array_elems < decl.inline_array →
      decode_field_value recurse c dna field_type_idx type_name decl opt =
        .error (.DecodeArrayTooLarge decl.inline_array opt.max_array_elems)) := by
  constructor
  · intro dna sdna_nr bytes opt depth fuel hd
    rw [decode_struct_impl.eq_def]
    simp [hd]
  · intro recurse c dna fti tn decl opt hcount
    have hne : decl.inline_array ≠ 0 := by omega
    simp [decode_field_value, hne, hcount]

theorem claim_C4_witness :
    DecodeOptions.default.max_depth ≤ 16 ∧
    decode_struct_impl nodeDna 0 [] DecodeOptions.default 16 0 =
      .error (.DecodeDepthExceeded 16) ∧
    DecodeOptions.default.max_array_elems < 5000 ∧
    decode_field_value (fun _ _ => .error .IdMissingName) (Cursor.new [])
        nodeDna 0 (bs "char") ⟨bs "big", 0, 5000, false, false⟩
        DecodeOptions.default =
      .error (.DecodeArrayTooLarge 5000 4096) :=
  ⟨by decide,
   claim_C4_decoder_limits.1 nodeDna 0 [] DecodeOptions.default 16 0 (by decide),
   by decide,
   claim_C4_decoder_limits.2 (fun _ _ => .error .IdMissingName)
     (Cursor.new []) nodeDna 0 (bs "char") ⟨bs "big", 0, 5000, false, false⟩
     DecodeOptions.default (by decide)⟩

end Blendoc

namespace Blendoc

/-! SDNA parsing (`blend/dna.rs`). All multi-byte reads are the `_le`
cursor primitives; `Dna::parse` takes no endianness input at all. -/

/-- `expect_tag`. -/
def expect_tag (c : Cursor) (expected : Bytes) : Except BlendError Cursor := do
  let at_ := c.pos
  let (got, c') ← c.read_code4
  if got ≠ expected then .error (.DnaBadTag expected got at_)
  else .ok c'

/-- `read_lossy_string` repeated `n` times; `from_utf8_lossy` is modelled
as the identity at the byte level (it is one on UTF-8 input). -/
def read_lossy_strings : Nat → Cursor → Except BlendError (List Bytes × Cursor)
  | 0, c => .ok ([], c)
  | n + 1, c => do
      let (s, c') ← c.read_cstring_bytes
      let (rest, c'') ← read_lossy_strings n c'
      .ok (s :: rest, c'')

/-- The `TLEN` read loop (`type_count` little-endian `u16`s). -/
def read_u16s : Nat → Cursor → Except BlendError (List Nat × Cursor)
  | 0, c => .ok ([], c)
  | n + 1, c => do
      let (v, c') ← c.read_u16_le
      let (rest, c'') ← read_u16s n c'
      .ok (v :: rest, c'')

/-- `check_index`. -/
def check_index (kind : String) (idx len : Nat) : Except BlendError Unit :=
  if len ≤ idx then .error (.DnaIndexOutOfRange kind idx (len - 1))
  else .ok ()

/-- The per-struct field read loop of `Dna::parse`. -/
def read_dna_fields (type_len name_len : Nat) :
    Nat → Cursor → Except BlendError (List DnaField × Cursor)
  | 0, c => .ok ([], c)
  | n + 1, c => do
      let (field_type_idx, c) ← c.read_u16_le
      let (field_name_idx, c) ← c.read_u16_le
      let _ ← check_index "field.type_idx" field_type_idx type_len
      let _ ← check_index "field.name_idx" field_name_idx name_len
      let (rest, c) ← read_dna_fields type_len name_len n c
      .ok (⟨field_type_idx, field_name_idx⟩ :: rest, c)

/-- The `STRC` struct read loop of `Dna::parse`. -/
def read_dna_structs (type_len name_len : Nat) :
    Nat → Cursor → Except BlendError (List DnaStruct × Cursor)
  | 0, c => .ok ([], c)
  | n + 1, c => do
      let (type_idx, c) ← c.read_u16_le
      let _ ← check_index "struct.type_idx" type_idx type_len
      let (field_count, c) ← c.read_u16_le
      let (fields, c) ← read_dna_fields type_len name_len field_count c
      let (rest, c) ← read_dna_structs type_len name_len n c
      .ok (⟨type_idx, fields⟩ :: rest, c)

/-- The `struct_for_type` fill loop: first sight wins, a duplicate struct
for the same type fails. In the parse flow every `type_idx` has already
been range-checked, so the source's direct indexing cannot panic. -/
def build_struct_for_type :
    List DnaStruct → Nat → List (Option Nat) →
      Except BlendError (List (Option Nat))
  | [], _, sft => .ok sft
  | item :: rest, idx, sft =>
      match sft.getD item.type_idx none with
      | some first => .error (.DnaDuplicateStructType item.type_idx first idx)
      | none =>
          build_struct_for_type rest (idx + 1) (sft.set item.type_idx (some idx))

/-- `Dna::parse`. -/
def Dna.parse (payload : Bytes) : Except BlendError Dna := do
  let c := Cursor.new payload
  let c ← expect_tag c (bs "SDNA")
  let c ← expect_tag c (bs "NAME")
  let (name_count, c) ← c.read_u32_le
  let (names, c) ← read_lossy_strings name_count c
  let c ← c.align4
  let c ← expect_tag c (bs "TYPE")
  let (type_count, c) ← c.read_u32_le
  let (types, c) ← read_lossy_strings type_count c
  let c ← c.align4
  let c ← expect_tag c (bs "TLEN")
  let (tlen, c) ← read_u16s type_count c
  let c ← c.align4
  let c ← expect_tag c (bs "STRC")
  let (struct_count, c) ← c.read_u32_le
  let (structs, _) ← read_dna_structs types.length names.length struct_count c
  let struct_for_type ←
    build_struct_for_type structs 0 (List.replicate types.length none)
  .ok ⟨names, types, tlen, structs, struct_for_type⟩

/-- A minimal `DNA1` payload for the single-struct `Node` schema, with
every count, size, and index encoded little-endian. -/
def nodeDnaPayload : Bytes :=
  bs "SDNA" ++ bs "NAME" ++ leBytes 4 1 ++ bs "*next" ++ [0, 0, 0] ++
  bs "TYPE" ++ leBytes 4 1 ++ bs "Node" ++ [0, 0, 0, 0] ++
  bs "TLEN" ++ leBytes 2 8 ++ [0, 0] ++
  bs "STRC" ++ leBytes 4 1 ++ leBytes 2 0 ++ leBytes 2 1 ++
  leBytes 2 0 ++ leBytes 2 0

/-- C9: every multi-byte scalar is read little-endian, independent of the
header — (a) the cursor word reads recombine `n`-byte little-endian
encodings to the encoded value; (b) pointer fields decode 8 bytes
little-endian; (c) a 4-byte `int` field with bytes `[1,0,0,0]` decodes to
1 (little-endian), not `2^24` (big-endian); (d) `Dna.parse`, which takes
no endianness argument, parses a payload whose counts, `tlen` entries and
struct indices are little-endian into the expected tables. -/
theorem claim_C9_little_endian :
    (∀ (v : Nat) (rest : Bytes), v < 2 ^ 32 →
      (Cursor.new (leBytes 4 v ++ rest)).read_u32_le =
        .ok (v, ⟨leBytes 4 v ++ rest, 4⟩)) ∧
    (∀ (v : Nat) (rest : Bytes), v < 2 ^ 64 →
      (Cursor.new (leBytes 8 v ++ rest)).read_u64_le =
        .ok (v, ⟨leBytes 8 v ++ rest, 8⟩)) ∧
    (∀ (v : Nat) (rest : Bytes), v < 2 ^ 64 →
      decode_pointer_values (Cursor.new (leBytes 8 v ++ rest)) 1 =
        .ok (.Ptr v, ⟨leBytes 8 v ++ rest, 8⟩)) ∧
    decode_primitive (bs "int") [1, 0, 0, 0] = .I64 1 ∧
    decode_primitive (bs "int") [0, 0, 0, 1] = .I64 16777216 ∧
    Dna.parse nodeDnaPayload = .ok nodeDna := by
  have hread : ∀ (n : Nat) (v : Nat) (rest : Bytes),
      (Cursor.new (leBytes n v ++ rest)).read_exact n =
        .ok (leBytes n v, ⟨leBytes n v ++ rest, n⟩) := by
    intro n v rest
    have hlen : (leBytes n v).length = n := by
      induction n generalizing v with
      | zero => simp [leBytes]
      | succ m ih => simp [leBytes, ih]
    have hnot : ¬ ((Cursor.new (leBytes n v ++ rest)).remaining < n) := by
      simp [Cursor.new, Cursor.remaining, hlen]
    have htake : (leBytes n v ++ rest).take n = leBytes n v := by
      have := List.take_left (leBytes n v) rest
      rwa [hlen] at this
    rw [Cursor.read_exact, if_neg hnot]
    simp [Cursor.new, htake]
  have h32 : ∀ v : Nat, v < 2 ^ 32 → readLE (leBytes 4 v) = v := by
    intro v hv
    have : (256 : Nat) ^ 4 = 2 ^ 32 := by norm_num
    exact readLE_leBytes_of_lt (by rw [this]; exact hv)
  have h64 : ∀ v : Nat, v < 2 ^ 64 → readLE (leBytes 8 v) = v := by
    intro v hv
    have : (256 : Nat) ^ 8 = 2 ^ 64 := by norm_num
    exact readLE_leBytes_of_lt (by rw [this]; exact hv)
  refine ⟨?_, ?_, ?_, by rfl, by rfl, by rfl⟩
  · intro v rest hv
    simp [Cursor.read_u32_le, hread 4 v rest, Except.map, h32 v hv]
  · intro v rest hv
    simp [Cursor.read_u64_le, hread 8 v rest, Except.map, h64 v hv]
  · intro v rest hv
    simp [decode_pointer_values, read_ptr_values, Cursor.read_u64_le,
      hread 8 v rest, Except.map, h64 v hv, finish_values]
    rfl

theorem claim_C9_witness :
    (Cursor.new (leBytes 4 258 ++ [7])).read_u32_le =
      .ok (258, ⟨leBytes 4 258 ++ [7], 4⟩) ∧
    decode_pointer_values (Cursor.new (leBytes 8 4096 ++ [])) 1 =
      .ok (.Ptr 4096, ⟨leBytes 8 4096 ++ [], 8⟩) :=
  ⟨claim_C9_little_endian.1 258 [7] (by decide),
   claim_C9_little_endian.2.2.1 4096 [] (by decide)⟩

end Blendoc

namespace Blendoc

/-! ID scanning (`crates/blendoc_core/src/blend/id/mod.rs`). The block
stream `file.blocks()` is passed in as the list of blocks it yields. -/

/-- Stable insertion step: models Rust's stable `sort_by_key` together
with `sortBy` (both are stable sorts, hence extensionally equal). -/
def insertSorted (le : α → α → Bool) (a : α) : List α → List α
  | [] => [a]
  | b :: rest => if le a b then a :: b :: rest else b :: insertSorted le a rest

/-- Stable sort by a boolean (total) comparison. -/
def sortBy (le : α → α → Bool) : List α → List α
  | [] => []
  | a :: rest => insertSorted le a (sortBy le rest)

theorem length_insertSorted (le : α → α → Bool) (a : α) (l : List α) :
    (insertSorted le a l).length = l.length + 1 := by
  induction l with
  | nil => rfl
  | cons b rest ih =>
      rw [insertSorted]
      split <;> simp [ih]

theorem length_sortBy (le : α → α → Bool) (l : List α) :
    (sortBy le l).length = l.length := by
  induction l with
  | nil => rfl
  | cons a rest ih => rw [sortBy]; simp [length_insertSorted, ih]

/-- One ID-root block summary (`IdRecord`). -/
structure IdRecord where
  old_ptr : Nat
  code : Bytes
  sdna_nr : Nat
  type_name : Bytes
  id_name : Bytes
  next : Option Nat
  prev : Option Nat
  lib : Option Nat
  deriving DecidableEq, Repr

/-- `IdLayout`. -/
structure IdLayout where
  id_sdna : Nat
  id_size : Nat
  deriving DecidableEq, Repr

/-- `detect_id_layout`. -/
def detect_id_layout (dna : Dna) : Except BlendError IdLayout :=
  match dna.types.findIdx? (· == bs "ID") with
  | none => .error (.DnaStructNotFound "ID")
  | some id_type_idx =>
      match dna.struct_for_type.getD id_type_idx none with
      | none => .error (.DnaStructNotFound "ID")
      | some id_sdna => .ok ⟨id_sdna, dna.tlen.getD id_type_idx 0⟩

/-- `id_root_flags`: a struct is ID-rooted iff its first field has type
`ID` and declarator identifier `id`. -/
def id_root_flags (dna : Dna) : List Bool :=
  dna.structs.map (fun item =>
    match item.fields.head? with
    | none => false
    | some first =>
        dna.type_name first.type_idx == bs "ID" &&
        (parse_field_decl (dna.field_name first.name_idx)).ident == bs "id")

/-- `extract_name_field`. -/
def extract_name_field (sv : StructValue) : Except BlendError Bytes :=
  match sv.2.find? (fun f => f.1 == bs "name") with
  | none => .error .IdMissingName
  | some f =>
      match f.2 with
      | .String v => .ok v
      | _ => .error .IdInvalidNameType

/-- `extract_ptr_field`. -/
def extract_ptr_field (sv : StructValue) (nm : Bytes) : Option Nat :=
  (sv.2.find? (fun f => f.1 == nm)).bind fun f =>
    match f.2 with
    | .Ptr p => some p
    | _ => none

/-- The per-block loop of `scan_id_blocks`. -/
def scan_id_blocks_loop (dna : Dna) (layout : IdLayout) (id_roots : List Bool)
    (decode : DecodeOptions) : List Block → Except BlendError (List IdRecord)
  | [] => .ok []
  | block :: rest =>
      if (id_roots.getD block.head.sdna_nr false) = false then
        scan_id_blocks_loop dna layout id_roots decode rest
      else if block.payload.length < layout.id_size then
        .error (.DecodePayloadTooSmall layout.id_size block.payload.length)
      else
        match decode_struct_instance dna layout.id_sdna
            (block.payload.take layout.id_size) decode with
        | .error e => .error e
        | .ok id =>
            match extract_name_field id with
            | .error e => .error e
            | .ok id_name =>
                match scan_id_blocks_loop dna layout id_roots decode rest with
                | .error e => .error e
                | .ok rest' =>
                    .ok ({ old_ptr := block.head.old, code := block.head.code,
                           sdna_nr := block.head.sdna_nr,
                           type_name := ((dna.struct_by_sdna block.head.sdna_nr).map
                             (fun item => dna.type_name item.type_idx)).getD
                               (bs "<unknown>"),
                           id_name := id_name,
                           next := extract_ptr_field id (bs "next"),
                           prev := extract_ptr_field id (bs "prev"),
                           lib := extract_ptr_field id (bs "lib") } :: rest')

/-- `scan_id_blocks`: scan all blocks, extract `ID` headers of ID-rooted
blocks, and sort the output by `old_ptr` (stable, like `sort_by_key`). -/
def scan_id_blocks (blocks : List Block) (dna : Dna) :
    Except BlendError (List IdRecord) :=
  match detect_id_layout dna with
  | .error e => .error e
  | .ok layout =>
      match scan_id_blocks_loop dna layout (id_root_flags dna)
          { DecodeOptions.default with
            include_padding := true, strict_layout := true } blocks with
      | .error e => .error e
      | .ok out => .ok (sortBy (fun a b => decide (a.old_ptr ≤ b.old_ptr)) out)

/-- SDNA under which `Obj`'s first field is an `ID` named `id`, and the
`ID` struct is `char name[4]`. -/
def c5Dna : Dna :=
  { names := [bs "name[4]", bs "id"],
    types := [bs "ID", bs "char", bs "Obj"],
    tlen := [4, 1, 4],
    structs := [⟨0, [⟨1, 0⟩]⟩, ⟨2, [⟨0, 1⟩]⟩],
    struct_for_type := [some 0, none, some 1] }

/-- An ID-rooted `Obj` block whose `ID.name` bytes are all NUL. -/
def c5Block : Block := ⟨⟨[79, 66, 0, 0], 1, 4096, 4, 1⟩, [0, 0, 0, 0], 0⟩

/-- C5 counterexample: this ID-rooted block produces exactly one record,
but its `id_name` is empty (the decoded `name` char array starts with
NUL), refuting the claim's non-emptiness. -/
theorem claim_C5_counterexample :
    scan_id_blocks [c5Block] c5Dna =
      .ok [{ old_ptr := 4096, code := [79, 66, 0, 0], sdna_nr := 1,
             type_name := bs "Obj", id_name := [], next := none,
             prev := none, lib := none }] ∧
    ([] : Bytes).length = 0 :=
  ⟨by rfl, rfl⟩

theorem scan_id_blocks_loop_length (dna : Dna) (layout : IdLayout)
    (id_roots : List Bool) (decode : DecodeOptions) (blocks : List Block)
    (out : List IdRecord)
    (h : scan_id_blocks_loop dna layout id_roots decode blocks = .ok out) :
    out.length = (blocks.filter
      (fun b => id_roots.getD b.head.sdna_nr false)).length := by
  induction blocks generalizing out with
  | nil =>
      rw [scan_id_blocks_loop] at h
      cases h
      rfl
  | cons block rest ih =>
      rw [scan_id_blocks_loop] at h
      by_cases hroot : id_roots.getD block.head.sdna_nr false
      · rw [if_neg (by rw [hroot]; simp)] at h
        split at h
        · exact Except.noConfusion h
        · split at h
          · exact Except.noConfusion h
          · split at h
            · exact Except.noConfusion h
            · split at h
              · exact Except.noConfusion h
              · rename_i rest' hrest
                cases h
                have hih := ih rest' hrest
                simp only [List.filter_cons, hroot, if_true, List.length_cons,
                  hih]
      · simp only [Bool.not_eq_true] at hroot
        rw [if_pos hroot] at h
        simp only [List.filter_cons, hroot, Bool.false_eq_true, if_false]
        exact ih out h

/-- C5 amended: when `scan_id_blocks` succeeds, every ID-rooted block
(first field of type `ID` with identifier `id`) contributes exactly one
record and blocks whose struct is not ID-rooted contribute none — the
record count equals the count of ID-rooted blocks; the non-emptiness of
`id_name` does not hold (see the counterexample). -/
theorem claim_C5_id_detection_amended (blocks : List Block) (dna : Dna)
    (records : List IdRecord)
    (h : scan_id_blocks blocks dna = .ok records) :
    records.length = (blocks.filter
      (fun b => (id_root_flags dna).getD b.head.sdna_nr false)).length := by
  unfold scan_id_blocks at h
  split at h
  · exact Except.noConfusion h
  · split at h
    · exact Except.noConfusion h
    · rename_i out hloop
      cases h
      rw [length_sortBy]
      exact scan_id_blocks_loop_length _ _ _ _ _ _ hloop

theorem claim_C5_witness :
    scan_id_blocks [c5Block] c5Dna =
      .ok [{ old_ptr := 4096, code := [79, 66, 0, 0], sdna_nr := 1,
             type_name := bs "Obj", id_name := [], next := none,
             prev := none, lib := none }] ∧
    ([{ old_ptr := 4096, code := [79, 66, 0, 0], sdna_nr := 1,
        type_name := bs "Obj", id_name := [], next := none,
        prev := none, lib := none }] : List IdRecord).length =
      ([c5Block].filter
        (fun b => (id_root_flags c5Dna).getD b.head.sdna_nr false)).length :=
  ⟨by rfl, claim_C5_id_detection_amended [c5Block] c5Dna _ (by rfl)⟩

end Blendoc

namespace Blendoc

/-! Path-based pointer chasing (`blend/chase_path.rs`, with `ChaseMeta`
from `blend/chase.rs` and `PathStep`/`FieldPath` from `blend/path.rs`). -/

/-- One parsed operation in a field path (`PathStep`). -/
inductive PathStep where
  | Field (name : Bytes)
  | Index (n : Nat)
  deriving DecidableEq, Repr

/-- Parsed field path (`FieldPath`). -/
structure FieldPath where
  steps : List PathStep
  deriving DecidableEq, Repr

/-- Behavior on a traversal stop condition (`StopMode`). -/
inductive StopMode where
  | Stop
  | Error
  deriving DecidableEq, Repr

/-- Policy controls for path-based traversal (`ChasePolicy`). -/
structure ChasePolicy where
  max_hops : Nat
  max_visited : Nat
  array_default_index : Option Nat
  on_null_ptr : StopMode
  on_unresolved_ptr : StopMode
  on_cycle : StopMode
  deriving DecidableEq, Repr

/-- `ChasePolicy::default`. -/
def ChasePolicy.default : ChasePolicy :=
  ⟨64, 10000, some 0, .Stop, .Stop, .Error⟩

/-- Reason traversal stopped early (`ChaseStopReason`). The `String`
payloads of the source are byte strings here. -/
inductive ChaseStopReason where
  | NullPtr
  | UnresolvedPtr (ptr : Nat)
  | Cycle (ptr : Nat)
  | MissingField (struct_name field : Bytes)
  | ExpectedStruct (got : Bytes)
  | ExpectedArray (got : Bytes)
  | IndexOob (index len : Nat)
  deriving DecidableEq, Repr

/-- Stop metadata with source step index (`ChaseStop`). -/
structure ChaseStop where
  step_index : Nat
  reason : ChaseStopReason
  deriving DecidableEq, Repr

/-- Metadata of one performed dereference (`ChaseMeta`, chase.rs). -/
structure ChaseMeta where
  ptr : Nat
  resolved_block_code : Bytes
  sdna_nr : Nat
  element_index : Nat
  element_offset : Nat
  struct_size : Nat
  block_old : Nat
  deriving DecidableEq, Repr

/-- Result of path traversal (`ChaseResult`). -/
structure ChaseResult where
  value : Value
  hops : List ChaseMeta
  stop : Option ChaseStop
  deriving Repr

/-- The mutable traversal state of `chase_value`: the hop trace, the
visited canonical set (`HashSet`, as a duplicate-free list) and the
decoded cache (`HashMap`, as an association list). -/
structure ChaseState where
  hops : List ChaseMeta
  visited : List Nat
  cache : List (Nat × StructValue)
  deriving Repr

/-- `value_kind`. -/
def value_kind : Value → Bytes
  | .Null => bs "Null"
  | .Bool _ => bs "Bool"
  | .I64 _ => bs "I64"
  | .U64 _ => bs "U64"
  | .F32 _ => bs "F32"
  | .F64 _ => bs "F64"
  | .Bytes _ => bs "Bytes"
  | .String _ => bs "String"
  | .Ptr _ => bs "Ptr"
  | .Array _ => bs "Array"
  | .Struct _ _ => bs "Struct"

/-- Outcome of `deref_pointer`. -/
inductive DerefOutcome where
  | Struct (sv : StructValue)
  | Stop (reason : ChaseStopReason)
  deriving Repr

/-- `deref_pointer`: the shared single-dereference subroutine. The
source's `checked_mul`/`checked_add` on `usize` cannot overflow for
in-range data and are plain `Nat` arithmetic here. -/
def deref_pointer (dna : Dna) (index : PointerIndex) (ptr : Nat)
    (decode : DecodeOptions) (policy : ChasePolicy) (st : ChaseState) :
    Except BlendError (DerefOutcome × ChaseState) :=
  if policy.max_hops ≤ st.hops.length then
    .error (.ChaseHopLimitExceeded policy.max_hops)
  else if ptr = 0 then
    match policy.on_null_ptr with
    | .Stop => .ok (.Stop .NullPtr, st)
    | .Error => .error .ChaseNullPtr
  else
    match index.resolve_typed dna ptr with
    | none =>
        match policy.on_unresolved_ptr with
        | .Stop => .ok (.Stop (.UnresolvedPtr ptr), st)
        | .Error => .error (.ChaseUnresolvedPtr ptr)
    | some typed =>
        match typed.element_index with
        | none =>
            match policy.on_unresolved_ptr with
            | .Stop => .ok (.Stop (.UnresolvedPtr ptr), st)
            | .Error => .error (.ChasePtrOutOfBounds ptr)
        | some element_index =>
            if policy.max_visited ≤ st.visited.length then
              match policy.on_cycle with
              | .Stop => .ok (.Stop (.Cycle ptr), st)
              | .Error => .error (.ChaseCycle ptr)
            else
              let offset_bytes := element_index * typed.struct_size
              let canonical := typed.base.entry.start_old + offset_bytes
              if st.visited.contains canonical then
                match policy.on_cycle with
                | .Stop => .ok (.Stop (.Cycle canonical), st)
                | .Error => .error (.ChaseCycle canonical)
              else
                let visited' := canonical :: st.visited
                let meta : ChaseMeta :=
                  { ptr := ptr,
                    resolved_block_code := typed.base.entry.block.head.code,
                    sdna_nr := typed.base.entry.block.head.sdna_nr,
                    element_index := element_index,
                    element_offset := typed.element_offset,
                    struct_size := typed.struct_size,
                    block_old := typed.base.entry.start_old }
                match st.cache.lookup canonical with
                | some cached =>
                    .ok (.Struct cached,
                      ⟨st.hops ++ [meta], visited', st.cache⟩)
                | none =>
                    let start := offset_bytes
                    let end_ := start + typed.struct_size
                    if typed.base.payload.length < end_ then
                      .error (.ChaseSliceOob start typed.struct_size
                        typed.base.payload.length)
                    else
                      match decode_struct_instance dna
                          typed.base.entry.block.head.sdna_nr
                          ((typed.base.payload.drop start).take
                            typed.struct_size) decode with
                      | .error e => .error e
                      | .ok value =>
                          .ok (.Struct value,
                            ⟨st.hops ++ [meta], visited',
                             (canonical, value) :: st.cache⟩)

mutual
/-- Maximum array-nesting depth of a value, bounding the array-peeling
iterations of one path step. -/
def valueDepth : Value → Nat
  | .Array items => 1 + valueDepthList items
  | _ => 0
/-- Pointwise maximum of `valueDepth` over a list. -/
def valueDepthList : List Value → Nat
  | [] => 0
  | v :: rest => max (valueDepth v) (valueDepthList rest)
end

end Blendoc

namespace Blendoc

/-- One iteration group of the inner `loop` of `chase_value` for a single
path step: array peeling repeats the step (`continue` in the source),
`Sum.inl` is the source's `break` (step consumed, new current), `Sum.inr`
an early `return`. After a dereference the source loops once more and
deterministically dispatches the resulting `Struct`; that final dispatch
is inlined here, so the only recursion is array peeling, which strictly
reduces `valueDepth`. Callers pass `fuel = valueDepth current + 1`, which
therefore can never be exhausted; the zero arm is unreachable for every
input of the entry points. -/
def chase_step (dna : Dna) (index : PointerIndex) (decode : DecodeOptions)
    (policy : ChasePolicy) (step : PathStep) (step_index : Nat) :
    Nat → Value → ChaseState →
      Except BlendError (Sum (Value × ChaseState) ChaseResult)
  | 0, _, _ => .error (.ChaseSliceOob 0 0 0)
  | fuel + 1, current, st =>
      match step, current with
      | .Field field_name, .Struct tname fields =>
          match fields.find? (fun f => f.1 == field_name) with
          | none =>
              .ok (.inr { value := .Struct tname fields, hops := st.hops,
                          stop := some ⟨step_index,
                            .MissingField tname field_name⟩ })
          | some f => .ok (.inl (f.2, st))
      | .Field _, .Array items =>
          match policy.array_default_index with
          | none =>
              .ok (.inr { value := .Array items, hops := st.hops,
                          stop := some ⟨step_index,
                            .ExpectedStruct (bs "Array")⟩ })
          | some default_index =>
              if items.length ≤ default_index then
                .ok (.inr { value := .Array items, hops := st.hops,
                            stop := some ⟨step_index,
                              .IndexOob default_index items.length⟩ })
              else
                chase_step dna index decode policy step step_index fuel
                  (items.getD default_index .Null) st
      | .Field field_name, .Ptr p =>
          match deref_pointer dna index p decode policy st with
          | .error e => .error e
          | .ok (.Stop reason, st') =>
              .ok (.inr { value := .Ptr p, hops := st'.hops,
                          stop := some ⟨step_index, reason⟩ })
          | .ok (.Struct sv, st') =>
              match sv.2.find? (fun f => f.1 == field_name) with
              | none =>
                  .ok (.inr { value := .Struct sv.1 sv.2, hops := st'.hops,
                              stop := some ⟨step_index,
                                .MissingField sv.1 field_name⟩ })
              | some f => .ok (.inl (f.2, st'))
      | .Field _, other =>
          .ok (.inr { value := other, hops := st.hops,
                      stop := some ⟨step_index,
                        .ExpectedStruct (value_kind other)⟩ })
      | .Index index_value, .Array items =>
          if items.length ≤ index_value then
            .ok (.inr { value := .Array items, hops := st.hops,
                        stop := some ⟨step_index,
                          .IndexOob index_value items.length⟩ })
          else .ok (.inl (items.getD index_value .Null, st))
      | .Index _, .Ptr p =>
          match deref_pointer dna index p decode policy st with
          | .error e => .error e
          | .ok (.Stop reason, st') =>
              .ok (.inr { value := .Ptr p, hops := st'.hops,
                          stop := some ⟨step_index, reason⟩ })
          | .ok (.Struct sv, st') =>
              .ok (.inr { value := .Struct sv.1 sv.2, hops := st'.hops,
                          stop := some ⟨step_index,
                            .ExpectedArray (bs "Struct")⟩ })
      | .Index _, other =>
          .ok (.inr { value := other, hops := st.hops,
                      stop := some ⟨step_index,
                        .ExpectedArray (value_kind other)⟩ })

/-- The step loop of `chase_value` plus the trailing
dereference-until-non-pointer phase (which performs at most one
dereference, since a dereference always yields a `Struct`). -/
def chase_loop (dna : Dna) (index : PointerIndex) (decode : DecodeOptions)
    (policy : ChasePolicy) :
    List PathStep → Nat → Value → ChaseState → Except BlendError ChaseResult
  | [], final_step, current, st =>
      match current with
      | .Ptr p =>
          (match deref_pointer dna index p decode policy st with
           | .error e => .error e
           | .ok (.Stop reason, st') =>
               .ok { value := .Ptr p, hops := st'.hops,
                     stop := some ⟨final_step, reason⟩ }
           | .ok (.Struct sv, st') =>
               .ok { value := .Struct sv.1 sv.2, hops := st'.hops,
                     stop := none })
      | other => .ok { value := other, hops := st.hops, stop := none }
  | step :: rest, step_index, current, st =>
      match chase_step dna index decode policy step step_index
          (valueDepth current + 1) current st with
      | .error e => .error e
      | .ok (.inl (current', st')) =>
          chase_loop dna index decode policy rest (step_index + 1) current' st'
      | .ok (.inr result) => .ok result

/-- `chase_value`. -/
def chase_value (current : Value) (dna : Dna) (index : PointerIndex)
    (path : FieldPath) (decode : DecodeOptions) (policy : ChasePolicy) :
    Except BlendError ChaseResult :=
  chase_loop dna index decode policy path.steps 0 current ⟨[], [], []⟩

/-- `chase_from_ptr`. -/
def chase_from_ptr (dna : Dna) (index : PointerIndex) (root_ptr : Nat)
    (path : FieldPath) (decode : DecodeOptions) (policy : ChasePolicy) :
    Except BlendError ChaseResult :=
  chase_value (.Ptr root_ptr) dna index path decode policy

end Blendoc

namespace Blendoc

theorem length_leBytes (n v : Nat) : (leBytes n v).length = n := by
  induction n generalizing v with
  | zero => simp [leBytes]
  | succ m ih => simp [leBytes, ih]

theorem read_exact_all (l : Bytes) :
    (Cursor.new l).read_exact l.length = .ok (l, ⟨l, l.length⟩) := by
  rw [Cursor.read_exact, if_neg (by simp [Cursor.new, Cursor.remaining])]
  simp [Cursor.new]

theorem read_u64_le_leBytes (v : Nat) (hv : v < 2 ^ 64) :
    (Cursor.new (leBytes 8 v)).read_u64_le = .ok (v, ⟨leBytes 8 v, 8⟩) := by
  have hlen := length_leBytes 8 v
  have hx := read_exact_all (leBytes 8 v)
  rw [hlen] at hx
  have h64 : v < 256 ^ 8 := by
    have : (256 : Nat) ^ 8 = 2 ^ 64 := by norm_num
    rw [this]; exact hv
  rw [Cursor.read_u64_le, hx]
  simp [Except.map, readLE_leBytes_of_lt h64]

/-- One-step unfolding of `decode_struct_impl` below the depth limit with
non-zero fuel. -/
theorem decode_struct_impl_succ (dna : Dna) (sdna_nr : Nat) (bytes : Bytes)
    (opt : DecodeOptions) (depth fuel : Nat) (h : ¬ opt.max_depth ≤ depth) :
    decode_struct_impl dna sdna_nr bytes opt depth (fuel + 1) =
      match dna.struct_by_sdna sdna_nr with
      | none => .error (.DecodeMissingSdna sdna_nr)
      | some item =>
          match decode_fields
              (fun sdna' bytes' =>
                decode_struct_impl dna sdna' bytes' opt (depth + 1) fuel)
              dna opt item.fields (Cursor.new bytes) with
          | .error e => .error e
          | .ok (fields, c') =>
              let type_name := dna.type_name item.type_idx
              if 0 < c'.remaining then
                if opt.strict_layout then
                  .error (.DecodeLayoutMismatch type_name c'.remaining)
                else
                  match c'.read_exact c'.remaining with
                  | .error e => .error e
                  | .ok _ => .ok (type_name, fields)
              else .ok (type_name, fields) := by
  rw [decode_struct_impl.eq_def, if_neg h]

/-- Decoding one `Node { Node *next; }` instance from the little-endian
encoding of `v` yields the struct with a single `next` pointer field. -/
theorem decode_node (v : Nat) (hv : v < 2 ^ 64) :
    decode_struct_instance nodeDna 0 (leBytes 8 v) DecodeOptions.default =
      .ok (bs "Node", [(bs "next", .Ptr v)]) := by
  have hlen := length_leBytes 8 v
  have hread := read_u64_le_leBytes v hv
  have hptr : decode_pointer_values (Cursor.new (leBytes 8 v)) 1 =
      .ok (.Ptr v, ⟨leBytes 8 v, 8⟩) := by
    rw [decode_pointer_values, read_ptr_values, hread]
    rfl
  have hmid : decode_struct_instance nodeDna 0 (leBytes 8 v)
      DecodeOptions.default =
      (match decode_pointer_values (Cursor.new (leBytes 8 v)) 1 with
       | .error e => .error e
       | .ok (value, c') =>
           if 0 < c'.remaining then
             match c'.read_exact c'.remaining with
             | .error e => .error e
             | .ok _ => .ok (bs "Node", [(bs "next", value)])
           else .ok (bs "Node", [(bs "next", value)])) := rfl
  rw [hmid, hptr]
  simp [Cursor.remaining, hlen]

end Blendoc

namespace Blendoc

/-- Two-block cycle fixture: block at `a` whose payload is the
little-endian pointer `b`, and block at `b` pointing back to `a`. -/
def cycleEntryA (a b : Nat) : PtrEntry :=
  ⟨a, a + 8, ⟨⟨bs "DATA", 0, a, 8, 1⟩, leBytes 8 b, 0⟩⟩
/-- Companion block of the cycle fixture, pointing back to `a`. -/
def cycleEntryB (a b : Nat) : PtrEntry :=
  ⟨b, b + 8, ⟨⟨bs "DATA", 0, b, 8, 1⟩, leBytes 8 a, 32⟩⟩
/-- Pointer index over the two cycle blocks. -/
def cycleIndex (a b : Nat) : PointerIndex :=
  ⟨[cycleEntryA a b, cycleEntryB a b]⟩
/-- The three-step path `next.next.next`. -/
def cyclePath : FieldPath :=
  ⟨[.Field (bs "next"), .Field (bs "next"), .Field (bs "next")]⟩
/-- The default-like policy with a chosen cycle mode. -/
def cyclePolicy (m : StopMode) : ChasePolicy :=
  ⟨64, 10000, some 0, .Stop, .Stop, m⟩
/-- Decoded `Node` struct value with one `next` pointer. -/
def nodeSV (v : Nat) : StructValue := (bs "Node", [(bs "next", Value.Ptr v)])
/-- Hop metadata for dereferencing the block at `p` in the fixture. -/
def cycleMeta (p : Nat) : ChaseMeta := ⟨p, bs "DATA", 0, 0, 0, 8, p⟩

theorem resolve_typed_cycleA (a b : Nat) (ha : 0 < a) (hab : a + 8 ≤ b) :
    (cycleIndex a b).resolve_typed nodeDna a =
      some ⟨⟨cycleEntryA a b, 0⟩, 8, some 0, 0⟩ := by
  have hchain : ([] ++ cycleEntryA a b :: [cycleEntryB a b]).Pairwise
      (fun (x y : PtrEntry) => x.end_old ≤ y.start_old) := by
    simp [cycleEntryA, cycleEntryB]; omega
  have hrange : ∀ e ∈ [] ++ cycleEntryA a b :: [cycleEntryB a b],
      e.start_old ≤ e.end_old := by
    intro e he
    have : e = cycleEntryA a b ∨ e = cycleEntryB a b := by simpa using he
    rcases this with rfl | rfl <;> simp [cycleEntryA, cycleEntryB]
  have hres := resolve_mem_range [] [cycleEntryB a b] (cycleEntryA a b) a
    hchain hrange (by simp [cycleEntryA]) (by simp [cycleEntryA]) ha
  have hres' : (cycleIndex a b).resolve a =
      some ⟨cycleEntryA a b, 0⟩ := by
    have hz : a - (cycleEntryA a b).start_old = 0 := by simp [cycleEntryA]
    rw [show cycleIndex a b = PointerIndex.mk
      ([] ++ cycleEntryA a b :: [cycleEntryB a b]) from rfl]
    rw [hres, hz]
  simp [PointerIndex.resolve_typed, hres', cycleEntryA, nodeDna,
    Dna.struct_by_sdna]

theorem resolve_typed_cycleB (a b : Nat) (ha : 0 < a) (hab : a + 8 ≤ b) :
    (cycleIndex a b).resolve_typed nodeDna b =
      some ⟨⟨cycleEntryB a b, 0⟩, 8, some 0, 0⟩ := by
  have hchain : ([cycleEntryA a b] ++ cycleEntryB a b :: []).Pairwise
      (fun (x y : PtrEntry) => x.end_old ≤ y.start_old) := by
    simp [cycleEntryA, cycleEntryB]; omega
  have hrange : ∀ e ∈ [cycleEntryA a b] ++ cycleEntryB a b :: [],
      e.start_old ≤ e.end_old := by
    intro e he
    have : e = cycleEntryA a b ∨ e = cycleEntryB a b := by simpa using he
    rcases this with rfl | rfl <;> simp [cycleEntryA, cycleEntryB]
  have hres := resolve_mem_range [cycleEntryA a b] [] (cycleEntryB a b) b
    hchain hrange (by simp [cycleEntryB]) (by simp [cycleEntryB])
    (by omega)
  have hres' : (cycleIndex a b).resolve b =
      some ⟨cycleEntryB a b, 0⟩ := by
    have hz : b - (cycleEntryB a b).start_old = 0 := by simp [cycleEntryB]
    rw [show cycleIndex a b = PointerIndex.mk
      ([cycleEntryA a b] ++ cycleEntryB a b :: []) from rfl]
    rw [hres, hz]
  simp [PointerIndex.resolve_typed, hres', cycleEntryB, nodeDna,
    Dna.struct_by_sdna]

end Blendoc

namespace Blendoc

theorem deref_cycle_first (a b : Nat) (m : StopMode) (ha : 0 < a)
    (hab : a + 8 ≤ b) (hb : b < 2 ^ 64) :
    deref_pointer nodeDna (cycleIndex a b) a DecodeOptions.default
        (cyclePolicy m) ⟨[], [], []⟩ =
      .ok (.Struct (nodeSV b), ⟨[cycleMeta a], [a], [(a, nodeSV b)]⟩) := by
  have hne : ¬ a = 0 := by omega
  have htake : (leBytes 8 b).take 8 = leBytes 8 b :=
    List.take_of_length_le (by rw [length_leBytes])
  rw [deref_pointer]
  rw [resolve_typed_cycleA a b ha hab]
  simp [cyclePolicy, hne, cycleEntryA, length_leBytes, htake,
    decode_node b hb, cycleMeta, nodeSV, ResolvedPtr.payload]

theorem deref_cycle_second (a b : Nat) (m : StopMode) (ha : 0 < a)
    (hab : a + 8 ≤ b) (ha64 : a < 2 ^ 64) :
    deref_pointer nodeDna (cycleIndex a b) b DecodeOptions.default
        (cyclePolicy m) ⟨[cycleMeta a], [a], [(a, nodeSV b)]⟩ =
      .ok (.Struct (nodeSV a),
        ⟨[cycleMeta a, cycleMeta b], [b, a],
         [(b, nodeSV a), (a, nodeSV b)]⟩) := by
  have hne : ¬ b = 0 := by omega
  have hne' : ¬ a = b := by omega
  have hne'' : ¬ b = a := by omega
  have hbeq : (b == a) = false := by
    simp only [beq_eq_false_iff_ne, ne_eq]
    omega
  have htake : (leBytes 8 a).take 8 = leBytes 8 a :=
    List.take_of_length_le (by rw [length_leBytes])
  rw [deref_pointer]
  rw [resolve_typed_cycleB a b ha hab]
  simp [cyclePolicy, hne, hne', hne'', cycleEntryB, length_leBytes, htake,
    decode_node a ha64, cycleMeta, nodeSV, List.lookup,
    ResolvedPtr.payload, hbeq]

theorem deref_cycle_third_stop (a b : Nat) (ha : 0 < a) (hab : a + 8 ≤ b) :
    deref_pointer nodeDna (cycleIndex a b) a DecodeOptions.default
        (cyclePolicy .Stop)
        ⟨[cycleMeta a, cycleMeta b], [b, a],
         [(b, nodeSV a), (a, nodeSV b)]⟩ =
      .ok (.Stop (.Cycle a),
        ⟨[cycleMeta a, cycleMeta b], [b, a],
         [(b, nodeSV a), (a, nodeSV b)]⟩) := by
  have hne : ¬ a = 0 := by omega
  rw [deref_pointer]
  rw [resolve_typed_cycleA a b ha hab]
  simp [cyclePolicy, hne, cycleEntryA]

theorem deref_cycle_third_error (a b : Nat) (ha : 0 < a) (hab : a + 8 ≤ b) :
    deref_pointer nodeDna (cycleIndex a b) a DecodeOptions.default
        (cyclePolicy .Error)
        ⟨[cycleMeta a, cycleMeta b], [b, a],
         [(b, nodeSV a), (a, nodeSV b)]⟩ =
      .error (.ChaseCycle a) := by
  have hne : ¬ a = 0 := by omega
  rw [deref_pointer]
  rw [resolve_typed_cycleA a b ha hab]
  simp [cyclePolicy, hne, cycleEntryA]

end Blendoc

namespace Blendoc

/-- C3: cycle safety of `chase_from_ptr` on a two-block cycle (block `a`
points to `b`, block `b` points back to `a`): with `on_cycle = Stop` the
chase emits exactly one hop per distinct canonical pointer (two hops,
with pairwise-distinct canonical block addresses) and terminates with a
`Cycle` stop; with `on_cycle = Error` the same chase fails with the
cycle error. -/
theorem claim_C3_cycle_safety (a b : Nat) (ha : 0 < a) (hab : a + 8 ≤ b)
    (hb : b < 2 ^ 64) :
    chase_from_ptr nodeDna (cycleIndex a b) a cyclePath
        DecodeOptions.default (cyclePolicy .Stop) =
      .ok ⟨.Ptr a, [cycleMeta a, cycleMeta b], some ⟨2, .Cycle a⟩⟩ ∧
    [cycleMeta a, cycleMeta b].length = 2 ∧
    ([cycleMeta a, cycleMeta b].map (fun h => h.block_old)).Nodup ∧
    chase_from_ptr nodeDna (cycleIndex a b) a cyclePath
        DecodeOptions.default (cyclePolicy .Error) =
      .error (.ChaseCycle a) := by
  have ha64 : a < 2 ^ 64 := by omega
  refine ⟨?_, by simp, ?_, ?_⟩
  · have hd1 := deref_cycle_first a b .Stop ha hab hb
    have hd2 := deref_cycle_second a b .Stop ha hab ha64
    have hd3 := deref_cycle_third_stop a b ha hab
    simp only [nodeSV, cycleMeta] at hd1 hd2 hd3
    simp [chase_from_ptr, chase_value, cyclePath, chase_loop, chase_step,
      valueDepth, hd1, hd2, hd3, nodeSV, cycleMeta]
  · simp [cycleMeta]
    omega
  · have hd1 := deref_cycle_first a b .Error ha hab hb
    have hd2 := deref_cycle_second a b .Error ha hab ha64
    have hd3 := deref_cycle_third_error a b ha hab
    simp only [nodeSV, cycleMeta] at hd1 hd2 hd3
    simp [chase_from_ptr, chase_value, cyclePath, chase_loop, chase_step,
      valueDepth, hd1, hd2, hd3, nodeSV, cycleMeta]

theorem claim_C3_witness :
    chase_from_ptr nodeDna (cycleIndex 4096 8192) 4096 cyclePath
        DecodeOptions.default (cyclePolicy .Stop) =
      .ok ⟨.Ptr 4096, [cycleMeta 4096, cycleMeta 8192],
           some ⟨2, .Cycle 4096⟩⟩ ∧
    chase_from_ptr nodeDna (cycleIndex 4096 8192) 4096 cyclePath
        DecodeOptions.default (cyclePolicy .Error) =
      .error (.ChaseCycle 4096) := by
  have h := claim_C3_cycle_safety 4096 8192 (by decide) (by decide) (by decide)
  exact ⟨h.1, h.2.2.2⟩

end Blendoc

namespace Blendoc

/-! Shortest-route search (`blend/route.rs`). The per-node reference scan
(`scan_refs_from_ptr`, with its `Dna`, indices and `RefScanOptions`
already applied) is a function parameter; each `RefRecord` carries the
field path, the raw pointer, and the canonical pointer of the resolved
target when resolvable (the source's `RefTarget` carries further metadata
the route search does not consume). -/

/-- One scanned pointer reference (`RefRecord`), restricted to the fields
its embedded consumers read. -/
structure RefRecord where
  field : Bytes
  ptr : Nat
  resolved : Option Nat
  deriving DecidableEq, Repr

/-- Runtime limits for route search (`RouteOptions`); the nested
`ref_scan` options live inside the scan-function parameter. -/
structure RouteOptions where
  max_depth : Nat
  max_nodes : Nat
  max_edges : Nat
  deriving DecidableEq, Repr

/-- `RouteTruncation`. -/
inductive RouteTruncation where
  | MaxDepth
  | MaxNodes
  | MaxEdges
  deriving DecidableEq, Repr

/-- One edge of a reconstructed route (`RouteEdge`; `from` is a Lean
keyword, hence `from_`). -/
structure RouteEdge where
  from_ : Nat
  to_ : Nat
  field : Bytes
  deriving DecidableEq, Repr

/-- `RouteResult`. -/
structure RouteResult where
  path : Option (List RouteEdge)
  visited_nodes : Nat
  visited_edges : Nat
  truncated : Option RouteTruncation
  deriving DecidableEq, Repr

/-- `canonicalize_ptr` (route.rs). -/
def canonicalize_ptr (dna : Dna) (index : PointerIndex) (ptr : Nat) :
    Except BlendError Nat :=
  if ptr = 0 then .error .ChaseNullPtr
  else
    match index.resolve_typed dna ptr with
    | none => .error (.ChaseUnresolvedPtr ptr)
    | some typed =>
        match typed.element_index with
        | none => .error (.ChasePtrOutOfBounds ptr)
        | some _ =>
            match index.canonical_ptr dna ptr with
            | none => .error (.ChasePtrOutOfBounds ptr)
            | some c => .ok c

/-- Lexicographic byte-string comparison (`Ord` on `str`/`Arc<str>`). -/
def bytesLe : Bytes → Bytes → Bool
  | [], _ => true
  | _ :: _, [] => false
  | x :: xs, y :: ys =>
      if x < y then true
      else if y < x then false
      else bytesLe xs ys

/-- The `(target_canonical, field)` comparator used to sort candidate
edges (`cmp(...).then_with(field cmp)`). -/
def edgeLe (x y : Nat × Bytes) : Bool :=
  decide (x.1 < y.1) || (decide (x.1 = y.1) && bytesLe x.2 y.2)

/-- The candidate-edge collection loop of `find_route_between_ptrs`:
skip unresolved references, count each resolved edge against `max_edges`
(`inl` = the `MaxEdges` break out of the outer loop, carrying the edge
count), and collect `(target_canonical, field)` pairs. -/
def collect_edges (max_edges : Nat) :
    List RefRecord → Nat → Sum Nat (List (Nat × Bytes) × Nat)
  | [], ve => .inr ([], ve)
  | r :: rest, ve =>
      match r.resolved with
      | none => collect_edges max_edges rest ve
      | some target =>
          if max_edges < ve + 1 then .inl (ve + 1)
          else
            match collect_edges max_edges rest (ve + 1) with
            | .inl v => .inl v
            | .inr (es, v) => .inr ((target, r.field) :: es, v)

/-- Outcome of processing one node's sorted candidate edges. -/
inductive ProcessOutcome where
  | Found (parents : List (Nat × Nat × Bytes)) (visited : List Nat)
  | MaxNodesBreak (visited : List Nat)
  | Continue (queue : List (Nat × Nat)) (visited : List Nat)
      (parents : List (Nat × Nat × Bytes))
  deriving Repr

/-- The enqueue loop over one node's sorted candidate edges. -/
def process_edges (options : RouteOptions) (tgt current depth : Nat) :
    List (Nat × Bytes) → List (Nat × Nat) → List Nat →
      List (Nat × Nat × Bytes) → ProcessOutcome
  | [], queue, visited, parents => .Continue queue visited parents
  | (next, via_field) :: rest, queue, visited, parents =>
      if visited.contains next then
        process_edges options tgt current depth rest queue visited parents
      else if options.max_nodes ≤ visited.length then .MaxNodesBreak visited
      else
        let visited' := next :: visited
        let parents' := (next, current, via_field) :: parents
        if next = tgt then .Found parents' visited'
        else
          process_edges options tgt current depth rest
            (queue ++ [(next, depth + 1)]) visited' parents'

/-- `reconstruct_route`'s walk toward the root. The parent map built by
the search is acyclic with at most `parents.length` steps, so the
callers' fuel of `parents.length + 1` cannot run out; the zero arm
mirrors the missing-parent error. -/
def reconstruct_loop (from_ : Nat) (parents : List (Nat × Nat × Bytes)) :
    Nat → Nat → List RouteEdge → Except BlendError (List RouteEdge)
  | 0, current, _ => .error (.ChaseUnresolvedPtr current)
  | fuel + 1, current, out =>
      if current = from_ then .ok out.reverse
      else
        match parents.lookup current with
        | none => .error (.ChaseUnresolvedPtr current)
        | some (prev, field) =>
            reconstruct_loop from_ parents fuel prev
              (out ++ [⟨prev, current, field⟩])

/-- `reconstruct_route`. -/
def reconstruct_route (from_ tgt : Nat) (parents : List (Nat × Nat × Bytes)) :
    Except BlendError (List RouteEdge) :=
  reconstruct_loop from_ parents (parents.length + 1) tgt []

/-- The BFS loop of `find_route_between_ptrs`. Each iteration pops one
queue entry; the number of pops is bounded by the pushes, which the
`max_nodes` budget caps at `max_nodes`, so the callers' fuel of
`max_nodes + 1` cannot run out; the zero arm mirrors the natural loop
end. A truncation reason is only ever set immediately before leaving the
loop, so the found-path return carries `truncated = none`. -/
def route_bfs (scanRefs : Nat → Except BlendError (List RefRecord))
    (options : RouteOptions) (from_ tgt : Nat) :
    Nat → List (Nat × Nat) → List Nat → List (Nat × Nat × Bytes) →
      Nat → Bool → Except BlendError RouteResult
  | _, [], visited, _, ve, hit =>
      .ok { path := none, visited_nodes := visited.length,
            visited_edges := ve,
            truncated := if hit then some .MaxDepth else none }
  | 0, _ :: _, visited, _, ve, hit =>
      .ok { path := none, visited_nodes := visited.length,
            visited_edges := ve,
            truncated := if hit then some .MaxDepth else none }
  | fuel + 1, (current, depth) :: queue, visited, parents, ve, hit =>
      if options.max_depth ≤ depth then
        route_bfs scanRefs options from_ tgt fuel queue visited parents ve true
      else
        match scanRefs current with
        | .error e => .error e
        | .ok refs =>
            match collect_edges options.max_edges refs ve with
            | .inl ve' =>
                .ok { path := none, visited_nodes := visited.length,
                      visited_edges := ve', truncated := some .MaxEdges }
            | .inr (next_edges, ve') =>
                match process_edges options tgt current depth
                    (sortBy edgeLe next_edges) queue visited parents with
                | .Found parents' visited' =>
                    match reconstruct_route from_ tgt parents' with
                    | .error e => .error e
                    | .ok path =>
                        .ok { path := some path,
                              visited_nodes := visited'.length,
                              visited_edges := ve', truncated := none }
                | .MaxNodesBreak visited' =>
                    .ok { path := none, visited_nodes := visited'.length,
                          visited_edges := ve', truncated := some .MaxNodes }
                | .Continue queue' visited' parents' =>
                    route_bfs scanRefs options from_ tgt fuel queue' visited'
                      parents' ve' hit

/-- `find_route_between_ptrs`. -/
def find_route_between_ptrs (dna : Dna) (index : PointerIndex)
    (scanRefs : Nat → Except BlendError (List RefRecord))
    (from_ptr to_ptr : Nat) (options : RouteOptions) :
    Except BlendError RouteResult :=
  match canonicalize_ptr dna index from_ptr with
  | .error e => .error e
  | .ok from_ =>
      match canonicalize_ptr dna index to_ptr with
      | .error e => .error e
      | .ok tgt =>
          if from_ = tgt then
            .ok { path := some [], visited_nodes := 1, visited_edges := 0,
                  truncated := none }
          else
            route_bfs scanRefs options from_ tgt (options.max_nodes + 1)
              [(from_, 0)] [from_] [] 0 false

theorem bytesLe_total (x y : Bytes) :
    bytesLe x y = true ∨ bytesLe y x = true := by
  induction x generalizing y with
  | nil => left; rfl
  | cons a xs ih =>
      cases y with
      | nil => right; rfl
      | cons b ys =>
          by_cases hab : a < b
          · left; simp [bytesLe, hab]
          · by_cases hba : b < a
            · right; simp [bytesLe, hba, hab]
            · rcases ih ys with h | h
              · left; simp [bytesLe, hab, hba, h]
              · right; simp [bytesLe, hab, hba, h]

theorem edgeLe_total (x y : Nat × Bytes) :
    edgeLe x y = true ∨ edgeLe y x = true := by
  by_cases h1 : x.1 < y.1
  · left; simp [edgeLe, h1]
  · by_cases h2 : y.1 < x.1
    · right; simp [edgeLe, h2]
    · have he : x.1 = y.1 := by omega
      rcases bytesLe_total x.2 y.2 with h | h
      · left; simp [edgeLe, he, h]
      · right; simp [edgeLe, he.symm, h]

theorem chain'_insertSorted (le : α → α → Bool)
    (htot : ∀ x y, le x y = true ∨ le y x = true) (a : α) (l : List α)
    (h : l.Chain' (fun x y => le x y = true)) :
    (insertSorted le a l).Chain' (fun x y => le x y = true) := by
  induction l with
  | nil => simp [insertSorted]
  | cons b rest ih =>
      rw [insertSorted]
      by_cases hab : le a b = true
      · rw [if_pos hab]
        exact List.Chain'.cons hab h
      · rw [if_neg hab]
        have hba : le b a = true := by
          rcases htot a b with h' | h'
          · exact absurd h' hab
          · exact h'
        have htail : rest.Chain' (fun x y => le x y = true) := h.tail
        have hins := ih htail
        cases rest with
        | nil =>
            simp [insertSorted]
            exact hba
        | cons c rest' =>
            rw [insertSorted] at hins ⊢
            by_cases hac : le a c = true
            · rw [if_pos hac] at hins ⊢
              exact List.Chain'.cons hba hins
            · rw [if_neg hac] at hins ⊢
              have hbc : le b c = true := (List.chain'_cons.mp h).1
              exact List.Chain'.cons hbc hins

theorem chain'_sortBy (le : α → α → Bool)
    (htot : ∀ x y, le x y = true ∨ le y x = true) (l : List α) :
    (sortBy le l).Chain' (fun x y => le x y = true) := by
  induction l with
  | nil => simp [sortBy]
  | cons a rest ih =>
      rw [sortBy]
      exact chain'_insertSorted le htot a (sortBy le rest) ih

/-- C7: route search — (a) when both input pointers canonicalize to the
same value, `find_route_between_ptrs` returns the zero-length path (with
one visited node, no edges, no truncation); (b) the candidate-edge list a
node expansion enqueues, `sortBy edgeLe` of the collected edges, is
sorted by the `(target_canonical, field)` comparator, so — the search
being a pure function of its inputs — the returned shortest path is
uniquely determined for fixed inputs and options. -/
theorem claim_C7_route_zero_and_sorted :
    (∀ (dna : Dna) (index : PointerIndex)
        (scanRefs : Nat → Except BlendError (List RefRecord))
        (from_ptr to_ptr : Nat) (options : RouteOptions) (c : Nat),
      canonicalize_ptr dna index from_ptr = .ok c →
      canonicalize_ptr dna index to_ptr = .ok c →
      find_route_between_ptrs dna index scanRefs from_ptr to_ptr options =
        .ok { path := some [], visited_nodes := 1, visited_edges := 0,
              truncated := none }) ∧
    (∀ (edges : List (Nat × Bytes)),
      (sortBy edgeLe edges).Chain' (fun x y => edgeLe x y = true)) := by
  constructor
  · intro dna index scanRefs from_ptr to_ptr options c hfrom hto
    rw [find_route_between_ptrs, hfrom, hto]
    simp
  · intro edges
    exact chain'_sortBy edgeLe edgeLe_total edges

theorem claim_C7_witness :
    find_route_between_ptrs nodeDna (cycleIndex 4096 8192)
        (fun _ => .ok []) 4096 4096 ⟨6, 20000, 100000⟩ =
      .ok { path := some [], visited_nodes := 1, visited_edges := 0,
            truncated := none } ∧
    (sortBy edgeLe [(7, bs "b"), (3, bs "a"), (3, bs "A")]).Chain'
      (fun x y => edgeLe x y = true) :=
  ⟨claim_C7_route_zero_and_sorted.1 nodeDna (cycleIndex 4096 8192)
     (fun _ => .ok []) 4096 4096 ⟨6, 20000, 100000⟩ 4096 (by rfl) (by rfl),
   claim_C7_route_zero_and_sorted.2 [(7, bs "b"), (3, bs "a"), (3, bs "A")]⟩

end Blendoc

namespace Blendoc

/-! Link provenance (`crates/blendoc_core/src/blend/liblink/mod.rs`).
The per-record classification loop of `scan_id_link_provenance` is
embedded over its inputs: the ID record, the reference scan output for
that record, and the scanned library records. -/

/-- Signal indicating why an ID is considered linked (`LinkSignal`). -/
inductive LinkSignal where
  | IdLibPtr (ptr : Nat)
  | OverrideLibraryPtr (ptr : Nat)
  | LibraryWeakReferencePtr (ptr : Nat)
  | LibraryIdPresent (library_id_name library_path : Bytes)
  deriving DecidableEq, Repr

/-- Confidence level (`LinkConfidence`). -/
inductive LinkConfidence where
  | None
  | Low
  | Medium
  | High
  deriving DecidableEq, Repr

/-- `LinkConfidence::rank`. -/
def LinkConfidence.rank : LinkConfidence → Nat
  | .None => 0
  | .Low => 1
  | .Medium => 2
  | .High => 3

/-- One declared external library record (`LibraryRecord`). -/
structure LibraryRecord where
  id_ptr : Nat
  id_name : Bytes
  library_path : Bytes
  is_relative : Bool
  deriving DecidableEq, Repr

/-- Linked-library provenance for one ID record (`IdLinkProvenance`). -/
structure IdLinkProvenance where
  id_ptr : Nat
  id_name : Bytes
  type_name : Bytes
  linked : Bool
  confidence : LinkConfidence
  signals : List LinkSignal
  deriving DecidableEq, Repr

/-- `is_library_id`: block code `LI\0\0` or type name `Library`. -/
def is_library_id (code type_name : Bytes) : Bool :=
  code == [76, 73, 0, 0] || type_name == bs "Library"

/-- `field_ptr`: first scanned reference with the given field path, kept
only when its raw pointer is non-zero. -/
def field_ptr (refs : List RefRecord) (field_name : Bytes) : Option Nat :=
  ((refs.find? (fun r => r.field == field_name)).map (fun r => r.ptr)).filter
    (fun p => decide (p ≠ 0))

/-- The gathered `id.lib` signal:
`item.lib.filter(!= 0).or_else(|| field_ptr(refs, "id.lib"))`. -/
def gathered_id_lib_ptr (item : IdRecord) (refs : List RefRecord) :
    Option Nat :=
  match item.lib.filter (fun p => decide (p ≠ 0)) with
  | some p => some p
  | none => field_ptr refs (bs "id.lib")

/-- The per-record classification body of `scan_id_link_provenance`. -/
def classify_link_provenance (item : IdRecord) (refs : List RefRecord)
    (libraries : List LibraryRecord) : IdLinkProvenance :=
  let id_lib_ptr := gathered_id_lib_ptr item refs
  let override_ptr := field_ptr refs (bs "id.override_library")
  let weak_ptr := field_ptr refs (bs "id.library_weak_reference")
  let signals : List LinkSignal :=
    (match id_lib_ptr with
     | some p => [.IdLibPtr p]
     | none => []) ++
    (match override_ptr with
     | some p => [.OverrideLibraryPtr p]
     | none => []) ++
    (match weak_ptr with
     | some p => [.LibraryWeakReferencePtr p]
     | none => []) ++
    (if is_library_id item.code item.type_name then
       match libraries.find? (fun r => r.id_ptr == item.old_ptr) with
       | some record => [.LibraryIdPresent record.id_name record.library_path]
       | none => []
     else [])
  let confidence :=
    if id_lib_ptr.isSome then LinkConfidence.High
    else if override_ptr.isSome || weak_ptr.isSome then LinkConfidence.Medium
    else if signals.any (fun s =>
        match s with
        | .LibraryIdPresent _ _ => true
        | _ => false) then LinkConfidence.Low
    else LinkConfidence.None
  { id_ptr := item.old_ptr, id_name := item.id_name,
    type_name := item.type_name,
    linked := decide (confidence ≠ LinkConfidence.None),
    confidence := confidence, signals := signals }

/-- C8: link-provenance classification — High/linked when the gathered
`id.lib` pointer is non-zero; Medium/linked when `id.override_library` or
`id.library_weak_reference` is non-zero and `id.lib` is not; Low/linked
when the only signal is `LibraryIdPresent` (the record is a `Library`
declaration, code `LI\0\0` or type `Library`, found among the scanned
libraries); None/not-linked when there is no signal. -/
theorem claim_C8_link_provenance (item : IdRecord) (refs : List RefRecord)
    (libraries : List LibraryRecord) :
    (∀ p, gathered_id_lib_ptr item refs = some p →
      (classify_link_provenance item refs libraries).confidence = .High ∧
      (classify_link_provenance item refs libraries).linked = true) ∧
    (gathered_id_lib_ptr item refs = none →
      ((field_ptr refs (bs "id.override_library")).isSome ∨
       (field_ptr refs (bs "id.library_weak_reference")).isSome) →
      (classify_link_provenance item refs libraries).confidence = .Medium ∧
      (classify_link_provenance item refs libraries).linked = true) ∧
    (∀ record, gathered_id_lib_ptr item refs = none →
      field_ptr refs (bs "id.override_library") = none →
      field_ptr refs (bs "id.library_weak_reference") = none →
      is_library_id item.code item.type_name = true →
      libraries.find? (fun r => r.id_ptr == item.old_ptr) = some record →
      (classify_link_provenance item refs libraries).confidence = .Low ∧
      (classify_link_provenance item refs libraries).linked = true ∧
      (classify_link_provenance item refs libraries).signals =
        [.LibraryIdPresent record.id_name record.library_path]) ∧
    (gathered_id_lib_ptr item refs = none →
      field_ptr refs (bs "id.override_library") = none →
      field_ptr refs (bs "id.library_weak_reference") = none →
      (is_library_id item.code item.type_name = false ∨
       libraries.find? (fun r => r.id_ptr == item.old_ptr) = none) →
      (classify_link_provenance item refs libraries).confidence = .None ∧
      (classify_link_provenance item refs libraries).linked = false ∧
      (classify_link_provenance item refs libraries).signals = []) := by
  refine ⟨?_, ?_, ?_, ?_⟩
  · intro p hp
    simp [classify_link_provenance, hp]
  · intro hlib how
    rcases how with h | h <;>
      [(rcases Option.isSome_iff_exists.mp h with ⟨p, hp⟩;
        simp [classify_link_provenance, hlib, hp]);
       (rcases Option.isSome_iff_exists.mp h with ⟨p, hp⟩;
        simp [classify_link_provenance, hlib, hp])]
  · intro record hlib hov hwk hisl hfind
    simp [classify_link_provenance, hlib, hov, hwk, hisl, hfind]
  · intro hlib hov hwk hnone
    rcases hnone with h | h <;>
      simp [classify_link_provenance, hlib, hov, hwk, h]

theorem claim_C8_witness :
    ((classify_link_provenance ⟨4096, [79, 66, 0, 0], 1, bs "Object",
        bs "OBcube", none, none, some 7⟩ [] []).confidence = .High ∧
     (classify_link_provenance ⟨4096, [79, 66, 0, 0], 1, bs "Object",
        bs "OBcube", none, none, some 7⟩ [] []).linked = true) ∧
    ((classify_link_provenance ⟨4096, [79, 66, 0, 0], 1, bs "Object",
        bs "OBcube", none, none, none⟩ [] []).confidence = .None ∧
     (classify_link_provenance ⟨4096, [79, 66, 0, 0], 1, bs "Object",
        bs "OBcube", none, none, none⟩ [] []).linked = false ∧
     (classify_link_provenance ⟨4096, [79, 66, 0, 0], 1, bs "Object",
        bs "OBcube", none, none, none⟩ [] []).signals = []) :=
  ⟨(claim_C8_link_provenance ⟨4096, [79, 66, 0, 0], 1, bs "Object",
      bs "OBcube", none, none, some 7⟩ [] []).1 7 (by rfl),
   (claim_C8_link_provenance ⟨4096, [79, 66, 0, 0], 1, bs "Object",
      bs "OBcube", none, none, none⟩ [] []).2.2.2 (by rfl) (by rfl) (by rfl)
     (.inl (by decide))⟩

end Blendoc
